import Mathlib

/-!
# ESP32AHT10: sensor acquisition and telemetry distribution

A shallow embedding of the C sources of the repository (`aht10.c`, `i2c_bus.c`,
`telemetry_store.c`, `telemetry.c`, `telemetry_udp.c`, `udp_sender.c`, `main.c`)
together with theorems about them.

Conventions of the embedding

* `uint8_t` values are natural numbers below `256`; `uint32_t` arithmetic is
  natural-number arithmetic reduced modulo `2 ^ 32` where a result could leave
  the range.
* `esp_err_t` is an integer; the constants come from ESP-IDF's `esp_err.h`.
* A C `float` is a finite IEEE-754 binary32 value, represented by the rational
  number it denotes (`float := ℚ`).  Every `float` operation of the code is
  the exact operation followed by `f32`, the rounding to the nearest binary32
  value, ties to even, with gradual underflow.  Overflow to infinity is not
  represented; the values of this program stay below `2 ^ 8`.
* Calls into ESP-IDF / FreeRTOS (the I2C master driver, the semaphore API, the
  timer) are not code of the repository: their results enter the embedded
  functions as explicit arguments.
* Pointer arguments are passed by value and the updated value is returned; the
  NULL-pointer guards on such arguments have no counterpart.
-/

namespace ESP32AHT10

/-! ## `esp_err.h` -/

/-- The ESP-IDF error type `esp_err_t` (a 32-bit signed integer). -/
abbrev esp_err_t := Int

/-- The value `ESP_OK` of `esp_err.h`. -/
def ESP_OK : esp_err_t := 0

/-- The value `ESP_FAIL` of `esp_err.h`. -/
def ESP_FAIL : esp_err_t := -1

/-- The value `ESP_ERR_INVALID_ARG` of `esp_err.h`. -/
def ESP_ERR_INVALID_ARG : esp_err_t := 0x102

/-- The value `ESP_ERR_INVALID_STATE` of `esp_err.h`. -/
def ESP_ERR_INVALID_STATE : esp_err_t := 0x103

/-- The value `ESP_ERR_TIMEOUT` of `esp_err.h`. -/
def ESP_ERR_TIMEOUT : esp_err_t := 0x107

/-- A C `float`: a finite binary32 value, represented by the rational number
it denotes. -/
abbrev float := ℚ

/-- Rounding of a rational to the nearest integer, ties to the even one. -/
def roundHalfEven (r : ℚ) : ℤ :=
  if r - ⌊r⌋ < 1 / 2 then ⌊r⌋
  else if 1 / 2 < r - ⌊r⌋ then ⌊r⌋ + 1
  else if ⌊r⌋ % 2 = 0 then ⌊r⌋
  else ⌊r⌋ + 1

/-- The exponent of the binary32 unit in the last place at `x`: the binary
exponent of `x`, not below the least normal exponent `-126`, less the 23
fraction bits. -/
def f32_exp (x : ℚ) : ℤ := max (Int.log 2 |x|) (-126) - 23

/-- The result of a binary32 operation whose exact result is `x`: the nearest
multiple of the unit in the last place at `x`, ties to even. -/
def f32 (x : ℚ) : float := roundHalfEven (x / 2 ^ f32_exp x) * 2 ^ f32_exp x

/-! ## `aht10.c` -/

/-- The command byte `AHT10_CMD_RESET`. -/
def AHT10_CMD_RESET : Nat := 0xBA

/-- The command byte `AHT10_CMD_INIT`. -/
def AHT10_CMD_INIT : Nat := 0xE1

/-- The command byte `AHT10_CMD_MEASURE`. -/
def AHT10_CMD_MEASURE : Nat := 0xAC

/-- The buffer `uint8_t data[6]` of `aht10_read`, as left by the bus read. -/
structure Frame where
  b0 : Nat
  b1 : Nat
  b2 : Nat
  b3 : Nat
  b4 : Nat
  b5 : Nat
deriving DecidableEq, Repr

/-- Every cell of the buffer holds a `uint8_t`. -/
def Frame.IsBytes (data : Frame) : Prop :=
  data.b0 < 256 ∧ data.b1 < 256 ∧ data.b2 < 256 ∧ data.b3 < 256 ∧ data.b4 < 256 ∧ data.b5 < 256

instance (data : Frame) : Decidable data.IsBytes := by
  unfold Frame.IsBytes
  infer_instance

/-- Conversion to `uint32_t`. -/
def u32 (n : Nat) : Nat := n % 2 ^ 32

/-- Line 45 of `aht10.c`:
`((uint32_t)data[1] << 12) | ((uint32_t)data[2] << 4) | (data[3] >> 4)`. -/
def raw_humidity (data : Frame) : Nat :=
  u32 (u32 (u32 data.b1 <<< 12) ||| u32 (u32 data.b2 <<< 4) ||| u32 (data.b3 >>> 4))

/-- Line 46 of `aht10.c`:
`((uint32_t)(data[3] & 0x0F) << 16) | ((uint32_t)data[4] << 8) | data[5]`. -/
def raw_temp (data : Frame) : Nat :=
  u32 (u32 (u32 (data.b3 &&& 0x0F) <<< 16) ||| u32 (u32 data.b4 <<< 8) ||| u32 data.b5)

/-- The caller's two output variables of `aht10_read`. -/
structure Reading where
  temperature_c : float
  humidity : float
deriving DecidableEq, Repr

/-- The function `aht10_init`: soft reset, settle delay, configure command.
`reset_ret` and `init_ret` are the results of the two `i2c_bus_write` calls. -/
def aht10_init (reset_ret init_ret : esp_err_t) : esp_err_t :=
  if reset_ret ≠ ESP_OK then reset_ret
  else init_ret

/-- The function `aht10_read`.  `write_ret` is the result of the
`i2c_bus_write` of the measure command, `read_ret` the result of the
`i2c_bus_read`, `data` the buffer after the read, `out` the caller's
`*temperature_c` and `*humidity` before the call.  The result is the returned
`esp_err_t` together with the caller's variables after the call.  In lines 48
and 49 the conversion `(float)raw`, the division by `1048576.0f`, the
multiplication and the subtraction are each one binary32 operation. -/
def aht10_read (write_ret read_ret : esp_err_t) (data : Frame) (out : Reading) :
    esp_err_t × Reading :=
  if write_ret ≠ ESP_OK then (write_ret, out)
  else if read_ret ≠ ESP_OK then (read_ret, out)
  else if data.b0 &&& 0x80 ≠ 0 then (ESP_ERR_TIMEOUT, out)
  else
    (ESP_OK,
      { humidity := f32 (f32 (f32 (raw_humidity data : ℚ) / 1048576) * 100)
        temperature_c := f32 (f32 (f32 (f32 (raw_temp data : ℚ) / 1048576) * 200) - 50) })

/-! ## `i2c_bus.c` -/

/-- The direction bit `I2C_MASTER_WRITE` of `driver/i2c.h`. -/
def I2C_MASTER_WRITE : Nat := 0

/-- The direction bit `I2C_MASTER_READ` of `driver/i2c.h`. -/
def I2C_MASTER_READ : Nat := 1

/-- The type `i2c_ack_type_t` of `driver/i2c.h`. -/
inductive i2c_ack_type_t where
  | I2C_MASTER_ACK
  | I2C_MASTER_NACK
  | I2C_MASTER_LAST_NACK
deriving DecidableEq, Repr

open i2c_ack_type_t

/-- One entry of an ESP-IDF command link.  A read entry names its destination
as an offset from the start of the caller's buffer. -/
inductive I2cCmd where
  /-- The entry queued by `i2c_master_start`. -/
  | start
  /-- The entry queued by `i2c_master_write_byte(cmd, data, ack_en)`. -/
  | write_byte (data : Nat) (ack_en : Bool)
  /-- The entry queued by `i2c_master_write(cmd, data, len, ack_en)`. -/
  | write (data : List Nat) (ack_en : Bool)
  /-- The entry queued by `i2c_master_read(cmd, buf + offset, len, ack)`. -/
  | read (offset : Int) (len : Nat) (ack : i2c_ack_type_t)
  /-- The entry queued by `i2c_master_read_byte(cmd, buf + offset, ack)`. -/
  | read_byte (offset : Int) (ack : i2c_ack_type_t)
  /-- The entry queued by `i2c_master_stop`. -/
  | stop
deriving DecidableEq, Repr

/-- Conversion to `uint8_t`. -/
def u8 (n : Nat) : Nat := n % 256

/-- The command link built by `i2c_bus_write` (lines 42-46 of `i2c_bus.c`). -/
def i2c_bus_write_link (addr : Nat) (data : List Nat) : List I2cCmd :=
  [I2cCmd.start,
   I2cCmd.write_byte (u8 ((addr <<< 1) ||| I2C_MASTER_WRITE)) true,
   I2cCmd.write data true,
   I2cCmd.stop]

/-- The command link built by `i2c_bus_read` (lines 55-62 of `i2c_bus.c`). -/
def i2c_bus_read_link (addr : Nat) (len : Nat) : List I2cCmd :=
  [I2cCmd.start,
   I2cCmd.write_byte (u8 ((addr <<< 1) ||| I2C_MASTER_READ)) true]
  ++ (if len > 1 then [I2cCmd.read 0 (len - 1) I2C_MASTER_ACK] else [])
  ++ [I2cCmd.read_byte ((len : Int) - 1) I2C_MASTER_NACK,
      I2cCmd.stop]

/-- The function `i2c_bus_write`: the link is handed to `i2c_master_cmd_begin`
with the bus timeout, and the driver's result is returned. -/
def i2c_bus_write (i2c_master_cmd_begin : List I2cCmd → Nat → esp_err_t) (timeout_ms : Nat)
    (addr : Nat) (data : List Nat) : esp_err_t :=
  i2c_master_cmd_begin (i2c_bus_write_link addr data) timeout_ms

/-- The function `i2c_bus_read`: the link is handed to `i2c_master_cmd_begin`
with the bus timeout, and the driver's result is returned. -/
def i2c_bus_read (i2c_master_cmd_begin : List I2cCmd → Nat → esp_err_t) (timeout_ms : Nat)
    (addr : Nat) (len : Nat) : esp_err_t :=
  i2c_master_cmd_begin (i2c_bus_read_link addr len) timeout_ms

/-- The bytes a command-link entry reads from the bus, in order: for each byte
its destination offset and whether the master acknowledges it (ESP-IDF:
`I2C_MASTER_ACK` acknowledges every byte, `I2C_MASTER_NACK` none,
`I2C_MASTER_LAST_NACK` all but the last). -/
def I2cCmd.bytesRead : I2cCmd → List (Int × Bool)
  | I2cCmd.read offset len ack =>
      (List.range len).map fun (i : Nat) =>
        (offset + (i : Int),
          match ack with
          | I2C_MASTER_ACK => true
          | I2C_MASTER_NACK => false
          | I2C_MASTER_LAST_NACK => decide (i + 1 < len))
  | I2cCmd.read_byte offset ack => [(offset, decide (ack = I2C_MASTER_ACK))]
  | _ => []

/-- The bytes read by a whole command link. -/
def bytesRead (link : List I2cCmd) : List (Int × Bool) :=
  link.flatMap I2cCmd.bytesRead

/-! ## `telemetry_store.c` -/

/-- The struct `TelemetrySample`. -/
structure TelemetrySample where
  temperature_c : float
  humidity : float
  timestamp_ms : Int
  has_data : Bool
deriving DecidableEq, Repr

/-- The struct `TelemetryStore`; `mutex` is `none` for a NULL handle. -/
structure TelemetryStore where
  sample : TelemetrySample
  mutex : Option Nat
deriving DecidableEq, Repr

/-- The function `telemetry_store_init`; `created` is the result of
`xSemaphoreCreateMutex()`. -/
def telemetry_store_init (_store : TelemetryStore) (created : Option Nat) : TelemetryStore :=
  { mutex := created
    sample := { temperature_c := 0, humidity := 0, timestamp_ms := 0, has_data := false } }

/-- The function `telemetry_store_update`; `take` tells whether
`xSemaphoreTake` returned `pdTRUE`, `now_us` is the value of
`esp_timer_get_time()`. -/
def telemetry_store_update (store : TelemetryStore) (temperature_c humidity : float)
    (take : Bool) (now_us : Int) : TelemetryStore :=
  if store.mutex.isNone then store
  else if take then
    { store with
      sample :=
        { temperature_c := temperature_c
          humidity := humidity
          timestamp_ms := Int.tdiv now_us 1000
          has_data := true } }
  else store

/-- The function `telemetry_store_get`; `out_sample` is the caller's buffer
before the call, `take` tells whether `xSemaphoreTake` returned `pdTRUE`.  The
result is the returned flag and the caller's buffer after the call. -/
def telemetry_store_get (store : TelemetryStore) (out_sample : TelemetrySample) (take : Bool) :
    Bool × TelemetrySample :=
  if store.mutex.isNone then (false, out_sample)
  else if take then (store.sample.has_data, store.sample)
  else (false, out_sample)

/-- A call on the store, with every lock acquisition succeeding. -/
inductive StoreCall where
  | update (temperature_c humidity : float) (now_us : Int)
  | get (out_sample : TelemetrySample)
deriving DecidableEq, Repr

/-- One call on the store: the store after the call and, for a `get`, what the
call returned. -/
def StoreCall.exec (store : TelemetryStore) :
    StoreCall → TelemetryStore × Option (Bool × TelemetrySample)
  | StoreCall.update t h now_us => (telemetry_store_update store t h true now_us, none)
  | StoreCall.get out_sample => (store, some (telemetry_store_get store out_sample true))

/-- A sequence of calls on the store: the final store and the results of the
`get` calls, in order. -/
def runCalls (store : TelemetryStore) :
    List StoreCall → TelemetryStore × List (Bool × TelemetrySample)
  | [] => (store, [])
  | c :: cs =>
      let r := c.exec store
      let rest := runCalls r.1 cs
      (rest.1, r.2.toList ++ rest.2)

/-! ## `telemetry.c`, `telemetry_udp.c`, `udp_sender.c` -/

/-- The two functions of the repository a `TelemetryPublisher.publish` pointer
can name. -/
inductive PublishFn where
  | noop
  | udp
deriving DecidableEq, Repr

/-- The struct `UdpPublisherCtx`, reduced to the socket descriptor of its
`UdpSender`. -/
structure UdpPublisherCtx where
  socket_fd : Int
deriving DecidableEq, Repr

/-- The struct `TelemetryPublisher`; `ctx` is `none` for a NULL pointer. -/
structure TelemetryPublisher where
  publish : PublishFn
  ctx : Option UdpPublisherCtx
deriving DecidableEq, Repr

/-- An observable action of the firmware. -/
inductive Event where
  /-- The record of `ESP_LOGI` in `sensor_task` (line 56 of `main.c`). -/
  | log_info (temperature humidity : float)
  /-- The record of `ESP_LOGW` in `sensor_task` (line 59 of `main.c`). -/
  | log_warn (ret : esp_err_t)
  /-- The record of `ESP_LOGE` in `app_main` (line 90 of `main.c`). -/
  | log_error (ret : esp_err_t)
  /-- A call through the pointer `ctx->publisher.publish` (line 57 of `main.c`). -/
  | publish (fn : PublishFn) (ctx : Option UdpPublisherCtx) (temperature humidity : float)
  /-- The datagram `temp=..,hum=..` handed to `sendto` by `udp_sender_send`. -/
  | sendto (socket_fd : Int) (temperature humidity : float)
deriving DecidableEq, Repr

/-- The state the acquisition task runs in: the Telemetry Store of the
process and the actions observed so far, oldest first. -/
structure System where
  store : TelemetryStore
  trace : List Event
deriving DecidableEq, Repr

/-- The function `telemetry_noop_publish`. -/
def telemetry_noop_publish (_ctx : Option UdpPublisherCtx) (_temperature_c _humidity : float)
    (sys : System) : System :=
  sys

/-- The function `udp_sender_send`, for the payload formatted from the two
values. -/
def udp_sender_send (sender : UdpPublisherCtx) (temperature_c humidity : float)
    (sys : System) : System :=
  if sender.socket_fd < 0 then sys
  else { sys with trace := sys.trace ++ [Event.sendto sender.socket_fd temperature_c humidity] }

/-- The function `telemetry_udp_publish`; `wifi_enable` is
`CONFIG_AHT10_WIFI_ENABLE`, `wifi_connected` the result of
`wifi_manager_is_connected`. -/
def telemetry_udp_publish (wifi_enable wifi_connected : Bool) (ctx : UdpPublisherCtx)
    (temperature_c humidity : float) (sys : System) : System :=
  if wifi_enable && !wifi_connected then sys
  else udp_sender_send ctx temperature_c humidity sys

/-! ## `main.c` -/

/-- The build-time configuration of `sdkconfig.h`. -/
structure Config where
  CONFIG_AHT10_WIFI_ENABLE : Bool
  CONFIG_AHT10_UDP_ENABLE : Bool
deriving DecidableEq, Repr

/-- The struct `Aht10Sensor`, reduced to the device address. -/
structure Aht10Sensor where
  address : Nat
deriving DecidableEq, Repr

/-- The address `AHT10_I2C_ADDR`. -/
def AHT10_I2C_ADDR : Nat := 0x38

/-- The struct `SensorTaskCtx`. -/
structure SensorTaskCtx where
  sensor : Aht10Sensor
  publisher : TelemetryPublisher
deriving DecidableEq, Repr

/-- What the environment contributes to one iteration of `sensor_task`: the
results of the two bus transactions of `aht10_read`, the buffer left by the
read, and the state of the network link. -/
structure CycleEnv where
  write_ret : esp_err_t
  read_ret : esp_err_t
  data : Frame
  wifi_connected : Bool
deriving DecidableEq, Repr

/-- The call `ctx->publisher.publish(ctx->publisher.ctx, temperature, humidity)`:
the call is recorded and the callee runs.  (`telemetry_udp_publish` with a NULL
context dereferences NULL in C; `app_main` never builds that binding.) -/
def TelemetryPublisher.call (cfg : Config) (p : TelemetryPublisher) (wifi_connected : Bool)
    (temperature humidity : float) (sys : System) : System :=
  let sys1 : System :=
    { sys with trace := sys.trace ++ [Event.publish p.publish p.ctx temperature humidity] }
  match p.publish, p.ctx with
  | PublishFn.noop, ctx => telemetry_noop_publish ctx temperature humidity sys1
  | PublishFn.udp, some ctx =>
      telemetry_udp_publish cfg.CONFIG_AHT10_WIFI_ENABLE wifi_connected ctx temperature humidity sys1
  | PublishFn.udp, none => sys1

/-- One iteration of the loop of `sensor_task` (lines 51-62 of `main.c`; the
delay at its end is not modelled). -/
def sensor_task_cycle (cfg : Config) (ctx : SensorTaskCtx) (env : CycleEnv) (sys : System) :
    System :=
  let r := aht10_read env.write_ret env.read_ret env.data { temperature_c := 0, humidity := 0 }
  let ret := r.1
  let temperature := r.2.temperature_c
  let humidity := r.2.humidity
  if ret = ESP_OK then
    ctx.publisher.call cfg env.wifi_connected temperature humidity
      { sys with trace := sys.trace ++ [Event.log_info temperature humidity] }
  else
    { sys with trace := sys.trace ++ [Event.log_warn ret] }

/-- The first iterations of `sensor_task`, one per element of `envs`. -/
def sensor_task (cfg : Config) (ctx : SensorTaskCtx) (envs : List CycleEnv) (sys : System) :
    System :=
  envs.foldl (fun s env => sensor_task_cycle cfg ctx env s) sys

/-- The publisher invocations recorded in a trace, oldest first. -/
def publishCalls (trace : List Event) : List Event :=
  trace.filter fun e =>
    match e with
    | Event.publish _ _ _ _ => true
    | _ => false

/-- What the environment contributes to `app_main`: the result of
`i2c_bus_init`, the results of the two bus writes of `aht10_init`, the results
of `nvs_flash_init` and `wifi_manager_init`, and the socket descriptor left by
`udp_sender_init`. -/
structure BootEnv where
  i2c_bus_init_ret : esp_err_t
  reset_ret : esp_err_t
  init_ret : esp_err_t
  nvs_flash_init_ret : esp_err_t
  wifi_manager_init_ret : esp_err_t
  udp_socket_fd : Int
deriving DecidableEq, Repr

/-- How `app_main` ends: an `ESP_ERROR_CHECK` aborts the process, or
`xTaskCreate(sensor_task, ..., &task_ctx, ...)` is called. -/
inductive BootOutcome where
  | abort (trace : List Event)
  | task_create (task_ctx : SensorTaskCtx) (trace : List Event)
deriving DecidableEq, Repr

/-- The function `app_main`.  An `ESP_ERROR_CHECK` on a non-OK value aborts; the
bus scan and the delays are not modelled. -/
def app_main (cfg : Config) (env : BootEnv) : BootOutcome :=
  if env.i2c_bus_init_ret ≠ ESP_OK then BootOutcome.abort []
  else
    let ret := aht10_init env.reset_ret env.init_ret
    let trace : List Event := if ret ≠ ESP_OK then [Event.log_error ret] else []
    let publisher : TelemetryPublisher := { publish := PublishFn.noop, ctx := none }
    let task_ctx (publisher : TelemetryPublisher) : SensorTaskCtx :=
      { sensor := { address := AHT10_I2C_ADDR }, publisher := publisher }
    if cfg.CONFIG_AHT10_WIFI_ENABLE then
      if env.nvs_flash_init_ret ≠ ESP_OK then BootOutcome.abort trace
      else if env.wifi_manager_init_ret ≠ ESP_OK then BootOutcome.abort trace
      else if cfg.CONFIG_AHT10_UDP_ENABLE then
        BootOutcome.task_create
          (task_ctx { publish := PublishFn.udp, ctx := some { socket_fd := env.udp_socket_fd } })
          trace
      else BootOutcome.task_create (task_ctx publisher) trace
    else BootOutcome.task_create (task_ctx publisher) trace

/-- Whether `app_main` started the acquisition task. -/
def BootOutcome.started : BootOutcome → Bool
  | BootOutcome.abort _ => false
  | BootOutcome.task_create _ _ => true

/-! ## `telemetry_store.c` under interleaving

One writer task runs `telemetry_store_update`, reader tasks run
`telemetry_store_get`, on a store whose mutex exists.  Every statement of the
two functions is one atomic step; the struct assignment `*out_sample =
store->sample` is four steps, one per field.  A FreeRTOS mutex is held by at
most one task: `xSemaphoreTake` succeeds only while the mutex is free, and
otherwise keeps the caller waiting or gives up and returns `pdFALSE`. -/

/-- A task. -/
inductive Tid where
  | writer
  | reader (i : Nat)
deriving DecidableEq, Repr

/-- Where the writer task stands in `telemetry_store_update(store, t, h)`. -/
inductive WPc where
  /-- Outside the function. -/
  | idle
  /-- At `xSemaphoreTake` (line 22). -/
  | take (t h : float)
  /-- Before `store->sample.temperature_c = temperature_c` (line 23). -/
  | w_temp (t h : float)
  /-- Before `store->sample.humidity = humidity` (line 24). -/
  | w_hum (t h : float)
  /-- Before `store->sample.timestamp_ms = esp_timer_get_time() / 1000` (line 25). -/
  | w_ts (t h : float)
  /-- Before `store->sample.has_data = true` (line 26). -/
  | w_has (t h : float)
  /-- Before `xSemaphoreGive` (line 27). -/
  | give (t h : float)
deriving DecidableEq, Repr

/-- Where a reader task stands in `telemetry_store_get(store, out_sample)`;
`out` is the current content of `*out_sample`. -/
inductive RPc where
  /-- Outside the function, no call made yet. -/
  | idle
  /-- At `xSemaphoreTake` (line 37). -/
  | take (out : TelemetrySample)
  /-- Line 38, before the copy of `temperature_c`. -/
  | c_temp (out : TelemetrySample)
  /-- Line 38, before the copy of `humidity`. -/
  | c_hum (out : TelemetrySample)
  /-- Line 38, before the copy of `timestamp_ms`. -/
  | c_ts (out : TelemetrySample)
  /-- Line 38, before the copy of `has_data`. -/
  | c_has (out : TelemetrySample)
  /-- Before `has_data = store->sample.has_data` (line 39). -/
  | r_has (out : TelemetrySample)
  /-- Before `xSemaphoreGive` (line 40). -/
  | give (out : TelemetrySample) (has_data : Bool)
  /-- Returned `has_data` after the copy was made under the lock. -/
  | done (out : TelemetrySample) (has_data : Bool)
  /-- Returned `false` because the lock was not obtained; `*out_sample` untouched. -/
  | failed (out : TelemetrySample)
deriving DecidableEq, Repr

/-- The state of the interleaved system.  `history` and `calls` are
bookkeeping: the initial record followed by the record each completed update
left behind, and the arguments of the update calls made so far. -/
structure Conc where
  sample : TelemetrySample
  owner : Option Tid
  writer : WPc
  readers : Nat → RPc
  history : List TelemetrySample
  calls : List (float × float)

/-- A scheduling decision. -/
inductive Action where
  /-- The writer task, outside the function, calls `telemetry_store_update(store, t, h)`. -/
  | update_call (t h : float)
  /-- The writer task executes its next statement; `now_us` is what
  `esp_timer_get_time()` returns if that statement reads the clock. -/
  | writer_step (now_us : Int)
  /-- The writer's `xSemaphoreTake` gives up and returns `pdFALSE`. -/
  | writer_take_fails
  /-- Reader `i`, outside the function, calls `telemetry_store_get(store, &out)`. -/
  | get_call (i : Nat) (out : TelemetrySample)
  /-- Reader `i` executes its next statement. -/
  | reader_step (i : Nat)
  /-- The `xSemaphoreTake` of reader `i` gives up and returns `pdFALSE`. -/
  | reader_take_fails (i : Nat)
deriving DecidableEq, Repr

/-- The record written by `telemetry_store_init`. -/
def emptySample : TelemetrySample :=
  { temperature_c := 0, humidity := 0, timestamp_ms := 0, has_data := false }

/-- The system after `telemetry_store_init`, every task outside the store's
functions. -/
def Conc.init : Conc :=
  { sample := emptySample
    owner := none
    writer := WPc.idle
    readers := fun _ => RPc.idle
    history := [emptySample]
    calls := [] }

/-- Reader `i` moves to `pc`. -/
def Conc.setReader (s : Conc) (i : Nat) (pc : RPc) : Conc :=
  { s with readers := fun j => if j = i then pc else s.readers j }

/-- The next statement of the writer task. -/
def Conc.writerStep (s : Conc) (now_us : Int) : Conc :=
  match s.writer with
  | WPc.idle => s
  | WPc.take t h =>
      if s.owner = none then { s with owner := some Tid.writer, writer := WPc.w_temp t h }
      else s
  | WPc.w_temp t h =>
      { s with sample := { s.sample with temperature_c := t }, writer := WPc.w_hum t h }
  | WPc.w_hum t h =>
      { s with sample := { s.sample with humidity := h }, writer := WPc.w_ts t h }
  | WPc.w_ts t h =>
      { s with
        sample := { s.sample with timestamp_ms := Int.tdiv now_us 1000 }
        writer := WPc.w_has t h }
  | WPc.w_has t h =>
      { s with sample := { s.sample with has_data := true }, writer := WPc.give t h }
  | WPc.give _ _ =>
      { s with owner := none, writer := WPc.idle, history := s.history ++ [s.sample] }

/-- The next statement of reader `i`. -/
def Conc.readerStep (s : Conc) (i : Nat) : Conc :=
  match s.readers i with
  | RPc.take out =>
      if s.owner = none then
        { s.setReader i (RPc.c_temp out) with owner := some (Tid.reader i) }
      else s
  | RPc.c_temp out =>
      s.setReader i (RPc.c_hum { out with temperature_c := s.sample.temperature_c })
  | RPc.c_hum out =>
      s.setReader i (RPc.c_ts { out with humidity := s.sample.humidity })
  | RPc.c_ts out =>
      s.setReader i (RPc.c_has { out with timestamp_ms := s.sample.timestamp_ms })
  | RPc.c_has out =>
      s.setReader i (RPc.r_has { out with has_data := s.sample.has_data })
  | RPc.r_has out =>
      s.setReader i (RPc.give out s.sample.has_data)
  | RPc.give out has_data =>
      { s.setReader i (RPc.done out has_data) with owner := none }
  | RPc.idle => s
  | RPc.done _ _ => s
  | RPc.failed _ => s

/-- Whether reader `i` is outside `telemetry_store_get`. -/
def RPc.outside : RPc → Bool
  | RPc.idle => true
  | RPc.done _ _ => true
  | RPc.failed _ => true
  | _ => false

/-- One scheduling decision; a decision that does not apply to the state
leaves it as it is. -/
def Conc.step (s : Conc) : Action → Conc
  | Action.update_call t h =>
      match s.writer with
      | WPc.idle => { s with writer := WPc.take t h, calls := s.calls ++ [(t, h)] }
      | _ => s
  | Action.writer_step now_us => s.writerStep now_us
  | Action.writer_take_fails =>
      match s.writer with
      | WPc.take _ _ => { s with writer := WPc.idle }
      | _ => s
  | Action.get_call i out =>
      if (s.readers i).outside then s.setReader i (RPc.take out) else s
  | Action.reader_step i => s.readerStep i
  | Action.reader_take_fails i =>
      match s.readers i with
      | RPc.take out => s.setReader i (RPc.failed out)
      | _ => s

/-- The system after a schedule. -/
def Conc.run (s : Conc) (schedule : List Action) : Conc :=
  schedule.foldl Conc.step s


/-- Whether the writer task stands between its `xSemaphoreTake` and its
`xSemaphoreGive`. -/
def WPc.inCS : WPc → Bool
  | WPc.idle => false
  | WPc.take _ _ => false
  | _ => true

/-- Whether a reader task stands between its `xSemaphoreTake` and its
`xSemaphoreGive`. -/
def RPc.inCS : RPc → Bool
  | RPc.c_temp _ => true
  | RPc.c_hum _ => true
  | RPc.c_ts _ => true
  | RPc.c_has _ => true
  | RPc.r_has _ => true
  | RPc.give _ _ => true
  | _ => false

/-- What the writer has achieved at each point of `telemetry_store_update`:
the fields already assigned hold the arguments of the call, and those
arguments belong to a recorded call. -/
def WPc.ok (sample : TelemetrySample) (calls : List (float × float)) : WPc → Prop
  | WPc.idle => True
  | WPc.take t h => (t, h) ∈ calls
  | WPc.w_temp t h => (t, h) ∈ calls
  | WPc.w_hum t h => (t, h) ∈ calls ∧ sample.temperature_c = t
  | WPc.w_ts t h => (t, h) ∈ calls ∧ sample.temperature_c = t ∧ sample.humidity = h
  | WPc.w_has t h => (t, h) ∈ calls ∧ sample.temperature_c = t ∧ sample.humidity = h
  | WPc.give t h =>
      (t, h) ∈ calls ∧ sample.temperature_c = t ∧ sample.humidity = h ∧ sample.has_data = true

/-- What a reader has achieved at each point of `telemetry_store_get`: the
fields already copied agree with the stored record, and a returned snapshot is
a record of the history. -/
def RPc.ok (sample : TelemetrySample) (history : List TelemetrySample) : RPc → Prop
  | RPc.idle => True
  | RPc.take _ => True
  | RPc.c_temp _ => True
  | RPc.c_hum out => out.temperature_c = sample.temperature_c
  | RPc.c_ts out => out.temperature_c = sample.temperature_c ∧ out.humidity = sample.humidity
  | RPc.c_has out =>
      out.temperature_c = sample.temperature_c ∧ out.humidity = sample.humidity
      ∧ out.timestamp_ms = sample.timestamp_ms
  | RPc.r_has out => out = sample
  | RPc.give out has_data => out = sample ∧ has_data = sample.has_data
  | RPc.done out has_data => out ∈ history ∧ has_data = out.has_data
  | RPc.failed _ => True

/-- The invariant of the interleaved system. -/
structure Conc.Inv (s : Conc) : Prop where
  /-- The mutex is held by the writer exactly while it is in its critical section. -/
  writer_cs : s.owner = some Tid.writer ↔ s.writer.inCS = true
  /-- The mutex is held by reader `i` exactly while it is in its critical section. -/
  reader_cs : ∀ i, s.owner = some (Tid.reader i) ↔ (s.readers i).inCS = true
  /-- Outside the writer's critical section the stored record is the latest of the history. -/
  stable : s.owner ≠ some Tid.writer → ∃ older, s.history = older ++ [s.sample]
  /-- The progress of the writer. -/
  writer_ok : s.writer.ok s.sample s.calls
  /-- The progress of each reader. -/
  reader_ok : ∀ i, (s.readers i).ok s.sample s.history
  /-- Every record of the history is the initial one or was written whole by one update. -/
  whole : ∀ r ∈ s.history,
    r = emptySample ∨ (r.has_data = true ∧ (r.temperature_c, r.humidity) ∈ s.calls)

/-! ## Theorems: binary32 rounding -/

theorem floor_le_roundHalfEven (r : ℚ) : ⌊r⌋ ≤ roundHalfEven r := by
  unfold roundHalfEven
  split_ifs <;> omega

theorem roundHalfEven_le_floor_add_one (r : ℚ) : roundHalfEven r ≤ ⌊r⌋ + 1 := by
  unfold roundHalfEven
  split_ifs <;> omega

/-- Rounding to the nearest integer moves a number by at most one half. -/
theorem abs_roundHalfEven_sub_le (r : ℚ) : |(roundHalfEven r : ℚ) - r| ≤ 1 / 2 := by
  have h1 := Int.floor_le r
  have h2 := Int.lt_floor_add_one r
  unfold roundHalfEven
  rw [abs_le]
  split_ifs with ha hb hc
  · constructor <;> linarith
  · push_cast
    constructor <;> linarith
  · constructor <;> linarith
  · push_cast
    constructor <;> linarith

theorem roundHalfEven_intCast (n : ℤ) : roundHalfEven (n : ℚ) = n := by
  unfold roundHalfEven
  rw [Int.floor_intCast]
  simp

/-- Rounding does not cross an integer from above. -/
theorem le_roundHalfEven {m : ℤ} {r : ℚ} (h : (m : ℚ) ≤ r) : m ≤ roundHalfEven r :=
  le_trans (Int.le_floor.2 h) (floor_le_roundHalfEven r)

/-- Rounding does not cross an integer from below. -/
theorem roundHalfEven_le {m : ℤ} {r : ℚ} (h : r ≤ (m : ℚ)) : roundHalfEven r ≤ m := by
  have h1 := Int.floor_le r
  by_cases hf : r - ⌊r⌋ < 1 / 2
  · have : roundHalfEven r = ⌊r⌋ := by
      unfold roundHalfEven
      rw [if_pos hf]
    rw [this]
    exact_mod_cast le_trans h1 h
  · have hlt : (⌊r⌋ : ℚ) < m := by linarith
    have hlt2 : ⌊r⌋ < m := by exact_mod_cast hlt
    have := roundHalfEven_le_floor_add_one r
    omega

/-- A number within less than one half of an integer rounds to it. -/
theorem roundHalfEven_eq_of_abs_lt {r : ℚ} (n : ℤ) (h : |r - n| < 1 / 2) :
    roundHalfEven r = n := by
  have h3 := abs_roundHalfEven_sub_le r
  rw [abs_lt] at h
  rw [abs_le] at h3
  have h4 : ((roundHalfEven r : ℤ) : ℚ) < n + 1 := by linarith
  have h5 : (n : ℚ) - 1 < (roundHalfEven r : ℤ) := by linarith
  have h6 : roundHalfEven r < n + 1 := by exact_mod_cast h4
  have h7 : n - 1 < roundHalfEven r := by exact_mod_cast h5
  omega

/-- A tie above an odd integer rounds up, to the even neighbour. -/
theorem roundHalfEven_tie_odd {r : ℚ} (n : ℤ) (h : r = n + 1 / 2) (hn : n % 2 = 1) :
    roundHalfEven r = n + 1 := by
  have hfl : ⌊r⌋ = n := by
    rw [Int.floor_eq_iff]
    constructor <;> linarith
  unfold roundHalfEven
  rw [hfl, h]
  have e : (n : ℚ) + 1 / 2 - n = 1 / 2 := by ring
  rw [e]
  simp [hn]

/-- A tie above an even integer rounds down, to that integer. -/
theorem roundHalfEven_tie_even {r : ℚ} (n : ℤ) (h : r = n + 1 / 2) (hn : n % 2 = 0) :
    roundHalfEven r = n := by
  have hfl : ⌊r⌋ = n := by
    rw [Int.floor_eq_iff]
    constructor <;> linarith
  unfold roundHalfEven
  rw [hfl, h]
  have e : (n : ℚ) + 1 / 2 - n = 1 / 2 := by ring
  rw [e]
  simp [hn]

theorem two_zpow_pos (e : ℤ) : (0 : ℚ) < 2 ^ e := zpow_pos (by norm_num) e

/-- The binary32 rounding error is at most half a unit in the last place. -/
theorem abs_f32_sub_le (x : ℚ) : |f32 x - x| ≤ 2 ^ f32_exp x / 2 := by
  have hq := two_zpow_pos (f32_exp x)
  have h := abs_roundHalfEven_sub_le (x / 2 ^ f32_exp x)
  have e : f32 x - x = ((roundHalfEven (x / 2 ^ f32_exp x) : ℚ) - x / 2 ^ f32_exp x)
      * 2 ^ f32_exp x := by
    unfold f32
    field_simp
  rw [e, abs_mul, abs_of_pos hq]
  calc |(roundHalfEven (x / 2 ^ f32_exp x) : ℚ) - x / 2 ^ f32_exp x| * 2 ^ f32_exp x
      ≤ 1 / 2 * 2 ^ f32_exp x := mul_le_mul_of_nonneg_right h hq.le
    _ = 2 ^ f32_exp x / 2 := by ring

/-- The exponent of the unit in the last place of a number below `2 ^ k`. -/
theorem f32_exp_le {x : ℚ} {k : ℤ} (hk : 1 ≤ k) (hx : |x| < 2 ^ k) : f32_exp x ≤ k - 24 := by
  have hlog : Int.log 2 |x| ≤ k - 1 := by
    rcases (abs_nonneg x).eq_or_lt with h0 | hpos
    · rw [← h0, Int.log_of_right_le_zero 2 le_rfl]
      omega
    · have := (Int.lt_zpow_iff_log_lt (R := ℚ) (b := 2) (by norm_num) hpos).1
        (by exact_mod_cast hx)
      omega
  unfold f32_exp
  have : max (Int.log 2 |x|) (-126) ≤ k - 1 := max_le hlog (by omega)
  omega

/-- The binary32 rounding error of a number below `2 ^ k`. -/
theorem abs_f32_sub_le_of_lt {x : ℚ} {k : ℤ} (hk : 1 ≤ k) (hx : |x| < 2 ^ k) :
    |f32 x - x| ≤ 2 ^ (k - 25) := by
  have h1 := abs_f32_sub_le x
  have h2 : (2 : ℚ) ^ f32_exp x ≤ 2 ^ (k - 24) :=
    zpow_le_zpow_right₀ (by norm_num) (f32_exp_le hk hx)
  have h3 : (2 : ℚ) ^ (k - 24) = 2 * 2 ^ (k - 25) := by
    rw [show k - 24 = (k - 25) + 1 by ring, zpow_add_one₀ (by norm_num)]
    ring
  linarith

/-- An integer multiple of a power of two at least as coarse as the unit in
the last place is a multiple of that unit. -/
theorem exists_int_of_exp_le (x : ℚ) (m k : ℤ) (hk : f32_exp x ≤ k) :
    ∃ n : ℤ, (m : ℚ) * 2 ^ k / 2 ^ f32_exp x = n := by
  refine ⟨m * 2 ^ (k - f32_exp x).toNat, ?_⟩
  have hq := two_zpow_pos (f32_exp x)
  have hsplit : (2 : ℚ) ^ k = 2 ^ (k - f32_exp x) * 2 ^ f32_exp x := by
    rw [← zpow_add₀ (by norm_num)]
    congr 1
    ring
  have hnat : (2 : ℚ) ^ (k - f32_exp x) = 2 ^ (k - f32_exp x).toNat := by
    rw [← zpow_natCast]
    congr 1
    omega
  rw [hsplit, hnat]
  push_cast
  field_simp
  ring

/-- Rounding to binary32 does not cross, from above, a multiple of a power of
two at least as coarse as the unit in the last place. -/
theorem le_f32 {x : ℚ} (m k : ℤ) (hk : f32_exp x ≤ k) (h : (m : ℚ) * 2 ^ k ≤ x) :
    (m : ℚ) * 2 ^ k ≤ f32 x := by
  have hq := two_zpow_pos (f32_exp x)
  obtain ⟨n, hn⟩ := exists_int_of_exp_le x m k hk
  have h1 : (n : ℚ) ≤ x / 2 ^ f32_exp x := by
    rw [← hn]
    exact div_le_div_of_nonneg_right h hq.le
  have h2 : (n : ℚ) ≤ roundHalfEven (x / 2 ^ f32_exp x) := by
    exact_mod_cast le_roundHalfEven h1
  have h3 : (m : ℚ) * 2 ^ k = n * 2 ^ f32_exp x := by
    rw [← hn]
    field_simp
  rw [h3]
  unfold f32
  exact mul_le_mul_of_nonneg_right h2 hq.le

/-- Rounding to binary32 does not cross, from below, a multiple of a power of
two at least as coarse as the unit in the last place. -/
theorem f32_le {x : ℚ} (m k : ℤ) (hk : f32_exp x ≤ k) (h : x ≤ (m : ℚ) * 2 ^ k) :
    f32 x ≤ (m : ℚ) * 2 ^ k := by
  have hq := two_zpow_pos (f32_exp x)
  obtain ⟨n, hn⟩ := exists_int_of_exp_le x m k hk
  have h1 : x / 2 ^ f32_exp x ≤ (n : ℚ) := by
    rw [← hn]
    exact div_le_div_of_nonneg_right h hq.le
  have h2 : ((roundHalfEven (x / 2 ^ f32_exp x) : ℤ) : ℚ) ≤ n := by
    exact_mod_cast roundHalfEven_le h1
  have h3 : (m : ℚ) * 2 ^ k = n * 2 ^ f32_exp x := by
    rw [← hn]
    field_simp
  rw [h3]
  unfold f32
  exact mul_le_mul_of_nonneg_right h2 hq.le

theorem f32_zero : f32 0 = 0 := by
  have h := roundHalfEven_intCast 0
  rw [Int.cast_zero] at h
  unfold f32
  rw [zero_div, h]
  simp

/-- A number with a significand of at most 24 bits and an exponent in the
binary32 range is its own rounding. -/
theorem f32_exact (m k : ℤ) (hm : |m| < 2 ^ 24) (hk : -149 ≤ k) :
    f32 ((m : ℚ) * 2 ^ k) = (m : ℚ) * 2 ^ k := by
  rcases (abs_nonneg ((m : ℚ) * 2 ^ k)).eq_or_lt with h0 | hpos
  · have hz : (m : ℚ) * 2 ^ k = 0 := abs_eq_zero.1 h0.symm
    rw [hz, f32_zero]
  · have hle : f32_exp ((m : ℚ) * 2 ^ k) ≤ k := by
      unfold f32_exp
      have hlt : |(m : ℚ) * 2 ^ k| < (2 : ℚ) ^ (k + 24) := by
        rw [abs_mul, abs_of_pos (two_zpow_pos k), zpow_add₀ (by norm_num), mul_comm]
        have h24 : |(m : ℚ)| < 2 ^ (24 : ℤ) := by
          have : ((|m| : ℤ) : ℚ) < ((2 ^ 24 : ℤ) : ℚ) := by exact_mod_cast hm
          rw [Int.cast_abs] at this
          rw [show (2 : ℚ) ^ (24 : ℤ) = ((2 ^ 24 : ℤ) : ℚ) by norm_num]
          exact this
        exact mul_lt_mul_of_pos_left h24 (two_zpow_pos k)
      have hlog := (Int.lt_zpow_iff_log_lt (R := ℚ) (b := 2) (by norm_num) hpos).1
        (by exact_mod_cast hlt)
      have : max (Int.log 2 |(m : ℚ) * 2 ^ k|) (-126) ≤ k + 23 := max_le (by omega) (by omega)
      omega
    exact le_antisymm (f32_le m k hle le_rfl) (le_f32 m k hle le_rfl)

/-- The rounding of a number whose binary exponent and rounded significand are
known. -/
theorem f32_eq_of {x : ℚ} (e n : ℤ) (he : -126 ≤ e) (h1 : (2 : ℚ) ^ e ≤ |x|)
    (h2 : |x| < (2 : ℚ) ^ (e + 1)) (hn : roundHalfEven (x / 2 ^ (e - 23)) = n) :
    f32 x = (n : ℚ) * 2 ^ (e - 23) := by
  have hpos : 0 < |x| := lt_of_lt_of_le (two_zpow_pos e) h1
  have hlog : Int.log 2 |x| = e := by
    have ha := (Int.zpow_le_iff_le_log (R := ℚ) (b := 2) (by norm_num) hpos).1
      (by exact_mod_cast h1)
    have hb := (Int.lt_zpow_iff_log_lt (R := ℚ) (b := 2) (by norm_num) hpos).1
      (by exact_mod_cast h2)
    omega
  have hexp : f32_exp x = e - 23 := by
    unfold f32_exp
    rw [hlog, max_eq_left he]
  unfold f32
  rw [hexp, hn]

/-- A natural number below `2 ^ 24` converts to `float` exactly. -/
theorem f32_natCast (n : Nat) (h : n < 2 ^ 24) : f32 (n : ℚ) = n := by
  have h1 := f32_exact (n : ℤ) 0 (by rw [abs_of_nonneg (by positivity)]; exact_mod_cast h)
    (by decide)
  simpa using h1

/-- A natural number below `2 ^ 24` divides by `2 ^ 20` exactly. -/
theorem f32_natCast_div (n : Nat) (h : n < 2 ^ 24) :
    f32 ((n : ℚ) / 1048576) = (n : ℚ) / 1048576 := by
  have h1 := f32_exact (n : ℤ) (-20) (by rw [abs_of_nonneg (by positivity)]; exact_mod_cast h)
    (by decide)
  have e : ((n : ℤ) : ℚ) * 2 ^ (-20 : ℤ) = (n : ℚ) / 1048576 := by
    rw [zpow_neg]
    norm_num
    ring
  rw [e] at h1
  exact h1

/-! ## Theorems: the frame decoder -/

theorem u32_of_lt {n : Nat} (h : n < 2 ^ 32) : u32 n = n := Nat.mod_eq_of_lt h

theorem shl_byte_lt {b : Nat} (k : Nat) (h : b < 256) : b <<< k < 2 ^ (8 + k) :=
  Nat.shiftLeft_lt (by simpa using h)

theorem lt_two_pow_mono {x m n : Nat} (h : x < 2 ^ m) (hmn : m ≤ n) : x < 2 ^ n :=
  lt_of_lt_of_le h (Nat.pow_le_pow_right (by decide) hmn)

theorem shr_byte_lt {b : Nat} (k m : Nat) (h : b < 256) (hm : 256 ≤ 2 ^ m) : b >>> k < 2 ^ m := by
  rw [Nat.shiftRight_eq_div_pow]
  exact lt_of_le_of_lt (Nat.div_le_self _ _) (lt_of_lt_of_le h hm)

/-- The `uint32_t` expression of line 45 never wraps. -/
theorem raw_humidity_eq (data : Frame) (h : data.IsBytes) :
    raw_humidity data = (data.b1 <<< 12) ||| (data.b2 <<< 4) ||| (data.b3 >>> 4) := by
  obtain ⟨_, h1, h2, h3, _, _⟩ := h
  have e1 : data.b1 <<< 12 < 2 ^ 32 := lt_two_pow_mono (shl_byte_lt 12 h1) (by decide)
  have e2 : data.b2 <<< 4 < 2 ^ 32 := lt_two_pow_mono (shl_byte_lt 4 h2) (by decide)
  have e3 : data.b3 >>> 4 < 2 ^ 32 := shr_byte_lt 4 32 h3 (by decide)
  unfold raw_humidity
  rw [u32_of_lt (show data.b1 < 2 ^ 32 by omega), u32_of_lt (show data.b2 < 2 ^ 32 by omega),
    u32_of_lt e1, u32_of_lt e2, u32_of_lt e3]
  exact u32_of_lt (Nat.or_lt_two_pow (Nat.or_lt_two_pow e1 e2) e3)

/-- The `uint32_t` expression of line 46 never wraps. -/
theorem raw_temp_eq (data : Frame) (h : data.IsBytes) :
    raw_temp data = ((data.b3 &&& 0x0F) <<< 16) ||| (data.b4 <<< 8) ||| data.b5 := by
  obtain ⟨_, _, _, _, h4, h5⟩ := h
  have m : data.b3 &&& 0x0F < 2 ^ 4 := Nat.and_lt_two_pow _ (by decide)
  have e1 : (data.b3 &&& 0x0F) <<< 16 < 2 ^ 32 :=
    lt_two_pow_mono (Nat.shiftLeft_lt m) (by decide)
  have e2 : data.b4 <<< 8 < 2 ^ 32 := lt_two_pow_mono (shl_byte_lt 8 h4) (by decide)
  have e3 : data.b5 < 2 ^ 32 := by omega
  unfold raw_temp
  rw [u32_of_lt (show data.b3 &&& 0x0F < 2 ^ 32 by omega),
    u32_of_lt (show data.b4 < 2 ^ 32 by omega), u32_of_lt e1, u32_of_lt e2, u32_of_lt e3]
  exact u32_of_lt (Nat.or_lt_two_pow (Nat.or_lt_two_pow e1 e2) e3)

theorem raw_humidity_lt (data : Frame) (h : data.IsBytes) : raw_humidity data < 2 ^ 20 := by
  rw [raw_humidity_eq data h]
  obtain ⟨_, h1, h2, h3, _, _⟩ := h
  refine Nat.or_lt_two_pow (Nat.or_lt_two_pow (shl_byte_lt 12 h1) ?_) ?_
  · exact lt_two_pow_mono (shl_byte_lt 4 h2) (by decide)
  · exact shr_byte_lt 4 (8 + 12) h3 (by decide)

theorem raw_temp_lt (data : Frame) (h : data.IsBytes) : raw_temp data < 2 ^ 20 := by
  rw [raw_temp_eq data h]
  obtain ⟨_, _, _, _, h4, h5⟩ := h
  have m : data.b3 &&& 0x0F < 2 ^ 4 := Nat.and_lt_two_pow _ (by decide)
  refine Nat.or_lt_two_pow (Nat.or_lt_two_pow (Nat.shiftLeft_lt m) ?_) ?_
  · exact lt_two_pow_mono (shl_byte_lt 8 h4) (by decide)
  · omega

/-- The test `data[0] & 0x80` of `aht10_read` is a test of bit 7. -/
theorem and_0x80_eq_zero_iff (b : Nat) : b &&& 0x80 = 0 ↔ b.testBit 7 = false := by
  have h := Nat.and_two_pow b 7
  norm_num at h
  rw [h]
  cases b.testBit 7 <;> simp

theorem aht10_read_busy (data : Frame) (out : Reading) (hb : data.b0.testBit 7 = true) :
    aht10_read ESP_OK ESP_OK data out = (ESP_ERR_TIMEOUT, out) := by
  have h : data.b0 &&& 0x80 ≠ 0 := by
    intro h0
    rw [and_0x80_eq_zero_iff] at h0
    rw [h0] at hb
    exact Bool.noConfusion hb
  simp [aht10_read, h]

theorem aht10_read_accept (data : Frame) (out : Reading) (hb : data.b0.testBit 7 = false) :
    aht10_read ESP_OK ESP_OK data out =
      (ESP_OK,
        { humidity := f32 (f32 (f32 (raw_humidity data : ℚ) / 1048576) * 100)
          temperature_c := f32 (f32 (f32 (f32 (raw_temp data : ℚ) / 1048576) * 200) - 50) }) := by
  have h : data.b0 &&& 0x80 = 0 := (and_0x80_eq_zero_iff _).2 hb
  simp [aht10_read, h]

/-- For a frame of bytes the conversion of the raw values and the division by
`2 ^ 20` are exact: only the multiplication and the subtraction round. -/
theorem aht10_read_accept_bytes (data : Frame) (out : Reading) (hbytes : data.IsBytes)
    (hb : data.b0.testBit 7 = false) :
    aht10_read ESP_OK ESP_OK data out =
      (ESP_OK,
        { humidity := f32 ((raw_humidity data : ℚ) / 1048576 * 100)
          temperature_c := f32 (f32 ((raw_temp data : ℚ) / 1048576 * 200) - 50) }) := by
  have hh : raw_humidity data < 2 ^ 24 := lt_two_pow_mono (raw_humidity_lt data hbytes) (by decide)
  have ht : raw_temp data < 2 ^ 24 := lt_two_pow_mono (raw_temp_lt data hbytes) (by decide)
  rw [aht10_read_accept data out hb, f32_natCast _ hh, f32_natCast _ ht,
    f32_natCast_div _ hh, f32_natCast_div _ ht]

theorem ESP_ERR_TIMEOUT_ne_ESP_OK : ESP_ERR_TIMEOUT ≠ ESP_OK := by decide

/-- The product of line 48 of `aht10.c` at the largest raw value: a tie, rounded
up to the even neighbour. -/
theorem f32_humidity_max : f32 ((1048575 : ℚ) / 1048576 * 100) = 3276797 / 32768 := by
  have h := f32_eq_of (x := (1048575 : ℚ) / 1048576 * 100) 6 13107188 (by decide)
    (by rw [abs_of_pos (by norm_num)]; norm_num)
    (by rw [abs_of_pos (by norm_num)]; norm_num)
    (by
      have e := roundHalfEven_tie_odd (r := (1048575 : ℚ) / 1048576 * 100 / 2 ^ ((6 : ℤ) - 23))
        13107187 (by norm_num [zpow_neg]) (by decide)
      rw [e]
      rfl)
  rw [h]
  norm_num [zpow_neg]

/-- The product of line 49 of `aht10.c` at the largest raw value: a tie, rounded
up to the even neighbour. -/
theorem f32_temp_product_max : f32 ((1048575 : ℚ) / 1048576 * 200) = 3276797 / 16384 := by
  have h := f32_eq_of (x := (1048575 : ℚ) / 1048576 * 200) 7 13107188 (by decide)
    (by rw [abs_of_pos (by norm_num)]; norm_num)
    (by rw [abs_of_pos (by norm_num)]; norm_num)
    (by
      have e := roundHalfEven_tie_odd (r := (1048575 : ℚ) / 1048576 * 200 / 2 ^ ((7 : ℤ) - 23))
        13107187 (by norm_num [zpow_neg]) (by decide)
      rw [e]
      rfl)
  rw [h]
  norm_num [zpow_neg]

/-- The temperature of line 49 of `aht10.c` at the largest raw value. -/
theorem f32_temp_max :
    f32 (f32 ((1048575 : ℚ) / 1048576 * 200) - 50) = 2457597 / 16384 := by
  rw [f32_temp_product_max]
  have h := f32_exact 9830388 (-16) (by decide) (by decide)
  have e : ((9830388 : ℤ) : ℚ) * 2 ^ (-16 : ℤ) = 3276797 / 16384 - 50 := by
    norm_num [zpow_neg]
  rw [e] at h
  rw [h]
  norm_num

/-- An integer below `2 ^ 24` in absolute value is a binary32 value. -/
theorem f32_intCast (m : ℤ) (hm : |m| < 2 ^ 24) : f32 (m : ℚ) = m := by
  have h := f32_exact m 0 hm (by decide)
  simpa using h

/-- Line 48 of `aht10.c` for a 20-bit raw value: the humidity lies in
`[0, 100)` and within `2 ^ -18` of the exact value. -/
theorem f32_humidity_bounds (n : Nat) (hn : n < 2 ^ 20) :
    0 ≤ f32 ((n : ℚ) / 1048576 * 100)
    ∧ f32 ((n : ℚ) / 1048576 * 100) < 100
    ∧ |f32 ((n : ℚ) / 1048576 * 100) - (n : ℚ) / 1048576 * 100| ≤ 1 / 2 ^ 18 := by
  have hn1 : (n : ℚ) ≤ 1048575 := by
    have : n ≤ 1048575 := by omega
    exact_mod_cast this
  have hn0 : (0 : ℚ) ≤ n := Nat.cast_nonneg n
  have hx0 : (0 : ℚ) ≤ (n : ℚ) / 1048576 * 100 := by positivity
  have hx1 : (n : ℚ) / 1048576 * 100 ≤ 100 - 100 / 1048576 := by linarith
  have habs : |(n : ℚ) / 1048576 * 100| < 2 ^ (7 : ℤ) := by
    rw [abs_of_nonneg hx0]
    norm_num
    linarith
  have herr := abs_f32_sub_le_of_lt (k := 7) (by decide) habs
  have hq : (2 : ℚ) ^ ((7 : ℤ) - 25) = 1 / 2 ^ 18 := by norm_num [zpow_neg]
  rw [hq] at herr
  have hlow := le_f32 (x := (n : ℚ) / 1048576 * 100) 0 0
    (by have := f32_exp_le (k := 7) (by decide) habs; omega) (by simpa using hx0)
  refine ⟨by simpa using hlow, ?_, herr⟩
  have := (abs_le.1 herr).2
  norm_num at this ⊢
  linarith

/-- Line 49 of `aht10.c` for a 20-bit raw value: the temperature lies in
`[-50, 150)` and within `2 ^ -16` of the exact value. -/
theorem f32_temp_bounds (n : Nat) (hn : n < 2 ^ 20) :
    -50 ≤ f32 (f32 ((n : ℚ) / 1048576 * 200) - 50)
    ∧ f32 (f32 ((n : ℚ) / 1048576 * 200) - 50) < 150
    ∧ |f32 (f32 ((n : ℚ) / 1048576 * 200) - 50) - ((n : ℚ) / 1048576 * 200 - 50)|
        ≤ 1 / 2 ^ 16 := by
  have hn1 : (n : ℚ) ≤ 1048575 := by
    have : n ≤ 1048575 := by omega
    exact_mod_cast this
  have hn0 : (0 : ℚ) ≤ n := Nat.cast_nonneg n
  have hx0 : (0 : ℚ) ≤ (n : ℚ) / 1048576 * 200 := by positivity
  have hx1 : (n : ℚ) / 1048576 * 200 ≤ 200 - 200 / 1048576 := by linarith
  have habs : |(n : ℚ) / 1048576 * 200| < 2 ^ (8 : ℤ) := by
    rw [abs_of_nonneg hx0]
    norm_num
    linarith
  have hq : (2 : ℚ) ^ ((8 : ℤ) - 25) = 1 / 2 ^ 17 := by norm_num [zpow_neg]
  have herr1 := abs_f32_sub_le_of_lt (k := 8) (by decide) habs
  rw [hq] at herr1
  have hy0 : 0 ≤ f32 ((n : ℚ) / 1048576 * 200) := by
    have := le_f32 (x := (n : ℚ) / 1048576 * 200) 0 0
      (by have := f32_exp_le (k := 8) (by decide) habs; omega) (by simpa using hx0)
    simpa using this
  have hy1 : f32 ((n : ℚ) / 1048576 * 200) ≤ 200 - 200 / 1048576 + 1 / 2 ^ 17 := by
    have := (abs_le.1 herr1).2
    linarith
  have habs2 : |f32 ((n : ℚ) / 1048576 * 200) - 50| < 2 ^ (8 : ℤ) := by
    rw [abs_lt]
    norm_num at hy1 ⊢
    constructor <;> linarith
  have herr2 := abs_f32_sub_le_of_lt (k := 8) (by decide) habs2
  rw [hq] at herr2
  have hlow := le_f32 (x := f32 ((n : ℚ) / 1048576 * 200) - 50) (-50) 0
    (by have := f32_exp_le (k := 8) (by decide) habs2; omega)
    (by norm_num; exact hy0)
  refine ⟨by simpa using hlow, ?_, ?_⟩
  · have := (abs_le.1 herr2).2
    norm_num at this hy1 ⊢
    linarith
  · rw [abs_le] at herr1 herr2 ⊢
    norm_num at herr1 herr2 ⊢
    constructor <;> linarith

/-- The outputs for the frame `00 FF FF FF FF FF`, whose raw values are both
`0xFFFFF`. -/
theorem aht10_read_max_frame (out : Reading) :
    aht10_read ESP_OK ESP_OK
        { b0 := 0, b1 := 0xFF, b2 := 0xFF, b3 := 0xFF, b4 := 0xFF, b5 := 0xFF } out
      = (ESP_OK, { humidity := 3276797 / 32768, temperature_c := 2457597 / 16384 }) := by
  rw [aht10_read_accept_bytes _ _ (by decide) (by decide),
    show raw_humidity { b0 := 0, b1 := 0xFF, b2 := 0xFF, b3 := 0xFF, b4 := 0xFF, b5 := 0xFF }
      = 1048575 from by decide,
    show raw_temp { b0 := 0, b1 := 0xFF, b2 := 0xFF, b3 := 0xFF, b4 := 0xFF, b5 := 0xFF }
      = 1048575 from by decide]
  have h1 := f32_humidity_max
  have h2 := f32_temp_max
  norm_num at h1 h2 ⊢
  exact ⟨h2, h1⟩

/-- The outputs for the frame `00 80 00 06 00 00`: every operation is exact. -/
theorem aht10_read_mid_frame (out : Reading) :
    aht10_read ESP_OK ESP_OK
        { b0 := 0, b1 := 0x80, b2 := 0, b3 := 0x06, b4 := 0, b5 := 0 } out
      = (ESP_OK, { temperature_c := 25, humidity := 50 }) := by
  rw [aht10_read_accept_bytes _ _ (by decide) (by decide),
    show raw_humidity { b0 := 0, b1 := 0x80, b2 := 0, b3 := 0x06, b4 := 0, b5 := 0 } = 524288
      from by decide,
    show raw_temp { b0 := 0, b1 := 0x80, b2 := 0, b3 := 0x06, b4 := 0, b5 := 0 } = 393216
      from by decide]
  have h1 : f32 (((524288 : ℕ) : ℚ) / 1048576 * 100) = 50 := by
    rw [show ((524288 : ℕ) : ℚ) / 1048576 * 100 = ((50 : ℤ) : ℚ) by norm_num,
      f32_intCast 50 (by decide)]
    norm_num
  have h2 : f32 (((393216 : ℕ) : ℚ) / 1048576 * 200) = 75 := by
    rw [show ((393216 : ℕ) : ℚ) / 1048576 * 200 = ((75 : ℤ) : ℚ) by norm_num,
      f32_intCast 75 (by decide)]
    norm_num
  have h3 : f32 ((75 : ℚ) - 50) = 25 := by
    rw [show (75 : ℚ) - 50 = ((25 : ℤ) : ℚ) by norm_num, f32_intCast 25 (by decide)]
    norm_num
  rw [h1, h2, h3]

/-- C1: for every 6-byte frame with bit 7 of byte 0 clear that a successful bus
read returned, the raw humidity computed by `aht10_read` is
`(b1 << 12) | (b2 << 4) | (b3 >> 4)`, the raw temperature is
`((b3 & 0x0F) << 16) | (b4 << 8) | b5`, both are below `2^20 = 1048576`, and
they are the values that `aht10_read` converts into its outputs; for the frame
`[0x00, 0x19, 0x99, 0x99, 0x4C, 0xCD]` the raw humidity is `0x19999 = 104857`. -/
theorem aht10_read_raw_values (data : Frame) (out : Reading) (hbytes : data.IsBytes)
    (hready : data.b0.testBit 7 = false) :
    raw_humidity data = (data.b1 <<< 12) ||| (data.b2 <<< 4) ||| (data.b3 >>> 4)
    ∧ raw_temp data = ((data.b3 &&& 0x0F) <<< 16) ||| (data.b4 <<< 8) ||| data.b5
    ∧ raw_humidity data < 1048576
    ∧ raw_temp data < 1048576
    ∧ aht10_read ESP_OK ESP_OK data out =
        (ESP_OK,
          { humidity :=
              f32 (f32 (f32
                (((data.b1 <<< 12) ||| (data.b2 <<< 4) ||| (data.b3 >>> 4) : Nat) : ℚ)
                / 1048576) * 100)
            temperature_c :=
              f32 (f32 (f32 (f32
                ((((data.b3 &&& 0x0F) <<< 16) ||| (data.b4 <<< 8) ||| data.b5 : Nat) : ℚ)
                / 1048576) * 200) - 50) })
    ∧ raw_humidity { b0 := 0x00, b1 := 0x19, b2 := 0x99, b3 := 0x99, b4 := 0x4C, b5 := 0xCD }
        = 104857
    ∧ (0x19999 : Nat) = 104857 := by
  refine ⟨raw_humidity_eq data hbytes, raw_temp_eq data hbytes, ?_, ?_, ?_, by decide, by decide⟩
  · simpa using raw_humidity_lt data hbytes
  · simpa using raw_temp_lt data hbytes
  · rw [aht10_read_accept data out hready, raw_humidity_eq data hbytes, raw_temp_eq data hbytes]

theorem aht10_read_raw_values_witness :
    raw_humidity { b0 := 0x00, b1 := 0x19, b2 := 0x99, b3 := 0x99, b4 := 0x4C, b5 := 0xCD }
        = (0x19 <<< 12) ||| (0x99 <<< 4) ||| (0x99 >>> 4)
    ∧ raw_temp { b0 := 0x00, b1 := 0x19, b2 := 0x99, b3 := 0x99, b4 := 0x4C, b5 := 0xCD }
        < 1048576 :=
  have h := aht10_read_raw_values
    { b0 := 0x00, b1 := 0x19, b2 := 0x99, b3 := 0x99, b4 := 0x4C, b5 := 0xCD }
    { temperature_c := 0, humidity := 0 } (by decide) (by decide)
  ⟨h.1, h.2.2.2.1⟩

/-- C2 fails as stated: for the frame `00 FF FF FF FF FF`, whose raw values are
both `0xFFFFF`, the humidity `aht10_read` outputs is `3276797 / 32768`, which is
neither `raw_humidity / 2^20 * 100` nor `100 * 1048575 / 1048576`, and the
temperature it outputs is `2457597 / 16384`, which is not
`raw_temp / 2^20 * 200 - 50`: the binary32 product is a tie and rounds up. -/
theorem aht10_read_conversion_not_exact :
    raw_humidity { b0 := 0, b1 := 0xFF, b2 := 0xFF, b3 := 0xFF, b4 := 0xFF, b5 := 0xFF }
        = 0xFFFFF
    ∧ raw_temp { b0 := 0, b1 := 0xFF, b2 := 0xFF, b3 := 0xFF, b4 := 0xFF, b5 := 0xFF }
        = 0xFFFFF
    ∧ ¬ ((aht10_read ESP_OK ESP_OK
            { b0 := 0, b1 := 0xFF, b2 := 0xFF, b3 := 0xFF, b4 := 0xFF, b5 := 0xFF }
            { temperature_c := 0, humidity := 0 }).2.humidity
          = (raw_humidity
              { b0 := 0, b1 := 0xFF, b2 := 0xFF, b3 := 0xFF, b4 := 0xFF, b5 := 0xFF } : ℚ)
            / 2 ^ 20 * 100)
    ∧ ¬ ((aht10_read ESP_OK ESP_OK
            { b0 := 0, b1 := 0xFF, b2 := 0xFF, b3 := 0xFF, b4 := 0xFF, b5 := 0xFF }
            { temperature_c := 0, humidity := 0 }).2.humidity
          = 100 * 1048575 / 1048576)
    ∧ ¬ ((aht10_read ESP_OK ESP_OK
            { b0 := 0, b1 := 0xFF, b2 := 0xFF, b3 := 0xFF, b4 := 0xFF, b5 := 0xFF }
            { temperature_c := 0, humidity := 0 }).2.temperature_c
          = (raw_temp
              { b0 := 0, b1 := 0xFF, b2 := 0xFF, b3 := 0xFF, b4 := 0xFF, b5 := 0xFF } : ℚ)
            / 2 ^ 20 * 200 - 50) := by
  rw [aht10_read_max_frame,
    show raw_humidity { b0 := 0, b1 := 0xFF, b2 := 0xFF, b3 := 0xFF, b4 := 0xFF, b5 := 0xFF }
      = 1048575 from by decide,
    show raw_temp { b0 := 0, b1 := 0xFF, b2 := 0xFF, b3 := 0xFF, b4 := 0xFF, b5 := 0xFF }
      = 1048575 from by decide]
  norm_num

/-- C2, amended: for every accepted frame (bit 7 of byte 0 clear, both bus
transactions successful) `aht10_read` returns `ESP_OK` with the binary32
evaluations of the two formulas on the full 20-bit raw values, where
`2^20 = 1048576`: the conversion of the raw value and the division by `2^20`
are exact, so `humidity` is the rounding of `raw_humidity / 2^20 * 100`, within
`2^-18` of it, and `temperature_c` is the rounding of the rounded product
`raw_temp / 2^20 * 200` less `50`, within `2^-16` of
`raw_temp / 2^20 * 200 - 50`.  Raw humidity `0` gives `0`, `0xFFFFF` gives
`3276797 / 32768`; raw temperature `0` gives `-50`, `0xFFFFF` gives
`2457597 / 16384`, which is strictly below `150`.  Both extreme raw values are
reached by frames. -/
theorem aht10_read_conversion_rounded (data : Frame) (out : Reading)
    (hbytes : data.IsBytes) (hready : data.b0.testBit 7 = false) :
    (aht10_read ESP_OK ESP_OK data out).1 = ESP_OK
    ∧ (aht10_read ESP_OK ESP_OK data out).2.humidity
        = f32 ((raw_humidity data : ℚ) / 2 ^ 20 * 100)
    ∧ (aht10_read ESP_OK ESP_OK data out).2.temperature_c
        = f32 (f32 ((raw_temp data : ℚ) / 2 ^ 20 * 200) - 50)
    ∧ (2 : ℚ) ^ 20 = 1048576
    ∧ |(aht10_read ESP_OK ESP_OK data out).2.humidity
          - (raw_humidity data : ℚ) / 2 ^ 20 * 100| ≤ 1 / 2 ^ 18
    ∧ |(aht10_read ESP_OK ESP_OK data out).2.temperature_c
          - ((raw_temp data : ℚ) / 2 ^ 20 * 200 - 50)| ≤ 1 / 2 ^ 16
    ∧ (raw_humidity data = 0 → (aht10_read ESP_OK ESP_OK data out).2.humidity = 0)
    ∧ (raw_humidity data = 0xFFFFF →
        (aht10_read ESP_OK ESP_OK data out).2.humidity = 3276797 / 32768)
    ∧ (raw_temp data = 0 → (aht10_read ESP_OK ESP_OK data out).2.temperature_c = -50)
    ∧ (raw_temp data = 0xFFFFF →
        (aht10_read ESP_OK ESP_OK data out).2.temperature_c = 2457597 / 16384
        ∧ (aht10_read ESP_OK ESP_OK data out).2.temperature_c < 150)
    ∧ raw_humidity { b0 := 0, b1 := 0, b2 := 0, b3 := 0, b4 := 0, b5 := 0 } = 0
    ∧ raw_temp { b0 := 0, b1 := 0, b2 := 0, b3 := 0, b4 := 0, b5 := 0 } = 0
    ∧ raw_humidity { b0 := 0, b1 := 0xFF, b2 := 0xFF, b3 := 0xFF, b4 := 0xFF, b5 := 0xFF }
        = 0xFFFFF
    ∧ raw_temp { b0 := 0, b1 := 0xFF, b2 := 0xFF, b3 := 0xFF, b4 := 0xFF, b5 := 0xFF }
        = 0xFFFFF := by
  have hpow : (2 : ℚ) ^ 20 = 1048576 := by norm_num
  have hh := f32_humidity_bounds (raw_humidity data) (raw_humidity_lt data hbytes)
  have ht := f32_temp_bounds (raw_temp data) (raw_temp_lt data hbytes)
  rw [aht10_read_accept_bytes data out hbytes hready, hpow]
  refine ⟨rfl, rfl, rfl, rfl, hh.2.2, ht.2.2, ?_, ?_, ?_, ?_,
    by decide, by decide, by decide, by decide⟩
  · intro h
    show f32 ((raw_humidity data : ℚ) / 1048576 * 100) = 0
    rw [h]
    have := f32_zero
    norm_num
    exact this
  · intro h
    show f32 ((raw_humidity data : ℚ) / 1048576 * 100) = 3276797 / 32768
    rw [h]
    have := f32_humidity_max
    norm_num at this ⊢
    exact this
  · intro h
    show f32 (f32 ((raw_temp data : ℚ) / 1048576 * 200) - 50) = -50
    rw [h]
    have h0 := f32_zero
    have h50 := f32_intCast (-50) (by decide)
    norm_num at h50 ⊢
    rw [h0]
    norm_num
    exact h50
  · intro h
    show f32 (f32 ((raw_temp data : ℚ) / 1048576 * 200) - 50) = 2457597 / 16384
      ∧ f32 (f32 ((raw_temp data : ℚ) / 1048576 * 200) - 50) < 150
    rw [h]
    have := f32_temp_max
    norm_num at this ⊢
    rw [this]
    norm_num

theorem aht10_read_conversion_rounded_witness :
    (aht10_read ESP_OK ESP_OK
        { b0 := 0x00, b1 := 0x19, b2 := 0x99, b3 := 0x99, b4 := 0x4C, b5 := 0xCD }
        { temperature_c := 0, humidity := 0 }).1 = ESP_OK
    ∧ |(aht10_read ESP_OK ESP_OK
          { b0 := 0x00, b1 := 0x19, b2 := 0x99, b3 := 0x99, b4 := 0x4C, b5 := 0xCD }
          { temperature_c := 0, humidity := 0 }).2.humidity
        - (raw_humidity
            { b0 := 0x00, b1 := 0x19, b2 := 0x99, b3 := 0x99, b4 := 0x4C, b5 := 0xCD } : ℚ)
          / 2 ^ 20 * 100| ≤ 1 / 2 ^ 18 :=
  have h := aht10_read_conversion_rounded
    { b0 := 0x00, b1 := 0x19, b2 := 0x99, b3 := 0x99, b4 := 0x4C, b5 := 0xCD }
    { temperature_c := 0, humidity := 0 } (by decide) (by decide)
  ⟨h.1, h.2.2.2.2.1⟩

/-- C3: for every 6-byte frame whose byte 0 has bit 7 set, both bus
transactions having succeeded, `aht10_read` returns its not-ready result (the
value `ESP_ERR_TIMEOUT`, which is not `ESP_OK`) and leaves the caller's
temperature and humidity as they were; the outcome is the same for every other
frame with bit 7 of byte 0 set, whatever its remaining 47 bits. -/
theorem aht10_read_not_ready (data other : Frame) (out : Reading)
    (hbusy : data.b0.testBit 7 = true) (hother : other.b0.testBit 7 = true) :
    (aht10_read ESP_OK ESP_OK data out).1 = ESP_ERR_TIMEOUT
    ∧ (aht10_read ESP_OK ESP_OK data out).1 ≠ ESP_OK
    ∧ (aht10_read ESP_OK ESP_OK data out).2 = out
    ∧ aht10_read ESP_OK ESP_OK other out = aht10_read ESP_OK ESP_OK data out := by
  rw [aht10_read_busy data out hbusy, aht10_read_busy other out hother]
  exact ⟨rfl, ESP_ERR_TIMEOUT_ne_ESP_OK, rfl, rfl⟩

theorem aht10_read_not_ready_witness :
    (aht10_read ESP_OK ESP_OK
        { b0 := 0x80, b1 := 0x19, b2 := 0x99, b3 := 0x99, b4 := 0x4C, b5 := 0xCD }
        { temperature_c := 21, humidity := 40 }).2 = { temperature_c := 21, humidity := 40 } :=
  (aht10_read_not_ready
    { b0 := 0x80, b1 := 0x19, b2 := 0x99, b3 := 0x99, b4 := 0x4C, b5 := 0xCD }
    { b0 := 0xFF, b1 := 0, b2 := 0, b3 := 0, b4 := 0, b5 := 0 }
    { temperature_c := 21, humidity := 40 } (by decide) (by decide)).2.2.1

/-! ## Theorems: the Telemetry Store, sequentially -/

theorem telemetry_store_update_mutex (store : TelemetryStore) (t h : float) (take : Bool)
    (now_us : Int) : (telemetry_store_update store t h take now_us).mutex = store.mutex := by
  unfold telemetry_store_update
  split
  · rfl
  · split <;> rfl

theorem telemetry_store_update_sample (store : TelemetryStore) (t h : float) (now_us : Int)
    (hm : store.mutex.isSome = true) :
    (telemetry_store_update store t h true now_us).sample =
      { temperature_c := t, humidity := h, timestamp_ms := Int.tdiv now_us 1000,
        has_data := true } := by
  have hn : store.mutex.isNone = false := by
    cases hmx : store.mutex with
    | none => rw [hmx] at hm; exact Bool.noConfusion hm
    | some _ => rfl
  simp [telemetry_store_update, hn]

theorem telemetry_store_get_locked (store : TelemetryStore) (out : TelemetrySample)
    (hm : store.mutex.isSome = true) :
    telemetry_store_get store out true = (store.sample.has_data, store.sample) := by
  have hn : store.mutex.isNone = false := by
    cases hmx : store.mutex with
    | none => rw [hmx] at hm; exact Bool.noConfusion hm
    | some _ => rfl
  simp [telemetry_store_get, hn]

theorem runCalls_mutex (store : TelemetryStore) (calls : List StoreCall) :
    (runCalls store calls).1.mutex = store.mutex := by
  induction calls generalizing store with
  | nil => rfl
  | cons c cs ih =>
    cases c with
    | update t h now_us =>
      simp only [runCalls, StoreCall.exec]
      rw [ih, telemetry_store_update_mutex]
    | get out =>
      simp only [runCalls, StoreCall.exec]
      rw [ih]

theorem runCalls_gets (store : TelemetryStore) (outs : List TelemetrySample) :
    runCalls store (outs.map StoreCall.get) =
      (store, outs.map fun out => telemetry_store_get store out true) := by
  induction outs with
  | nil => rfl
  | cons o os ih =>
    simp only [List.map_cons, runCalls, StoreCall.exec, ih, Option.toList, List.singleton_append]

theorem runCalls_append (store : TelemetryStore) (xs ys : List StoreCall) :
    runCalls store (xs ++ ys) =
      ((runCalls (runCalls store xs).1 ys).1,
        (runCalls store xs).2 ++ (runCalls (runCalls store xs).1 ys).2) := by
  induction xs generalizing store with
  | nil => simp [runCalls]
  | cons c cs ih =>
    show runCalls store (c :: (cs ++ ys)) = _
    simp only [runCalls, ih, List.append_assoc]

/-- C4: on a store initialised with its mutex created, all lock acquisitions
succeeding: any number of `telemetry_store_get` calls made before any update
all return `false` and leave the store as `telemetry_store_init` left it; and
after any earlier calls followed by `telemetry_store_update(t, h)`, any number
of `telemetry_store_get` calls all return `true` with a sample whose
temperature is `t` and whose humidity is `h`, and leave the store as that
update left it. -/
theorem telemetry_store_get_sequence (store : TelemetryStore) (m : Nat)
    (outs : List TelemetrySample) (earlier : List StoreCall) (t h : float) (now_us : Int) :
    (runCalls (telemetry_store_init store (some m)) (outs.map StoreCall.get)).1
        = telemetry_store_init store (some m)
    ∧ (runCalls (telemetry_store_init store (some m)) (outs.map StoreCall.get)).2.length
        = outs.length
    ∧ (∀ r ∈ (runCalls (telemetry_store_init store (some m)) (outs.map StoreCall.get)).2,
        r.1 = false)
    ∧ (runCalls (telemetry_store_init store (some m))
          (earlier ++ [StoreCall.update t h now_us] ++ outs.map StoreCall.get)).1
        = (runCalls (telemetry_store_init store (some m))
            (earlier ++ [StoreCall.update t h now_us])).1
    ∧ (runCalls (runCalls (telemetry_store_init store (some m))
          (earlier ++ [StoreCall.update t h now_us])).1 (outs.map StoreCall.get)).2.length
        = outs.length
    ∧ (∀ r ∈ (runCalls (runCalls (telemetry_store_init store (some m))
          (earlier ++ [StoreCall.update t h now_us])).1 (outs.map StoreCall.get)).2,
        r.1 = true ∧ r.2.temperature_c = t ∧ r.2.humidity = h) := by
  have hm0 : (telemetry_store_init store (some m)).mutex.isSome = true := rfl
  have hm1 : (runCalls (telemetry_store_init store (some m)) earlier).1.mutex.isSome = true := by
    rw [runCalls_mutex]
    rfl
  have hs1 : (runCalls (telemetry_store_init store (some m))
      (earlier ++ [StoreCall.update t h now_us])).1.sample =
      { temperature_c := t, humidity := h, timestamp_ms := Int.tdiv now_us 1000,
        has_data := true } := by
    rw [runCalls_append]
    simp only [runCalls, StoreCall.exec]
    exact telemetry_store_update_sample _ t h now_us hm1
  have hm2 : (runCalls (telemetry_store_init store (some m))
      (earlier ++ [StoreCall.update t h now_us])).1.mutex.isSome = true := by
    rw [runCalls_mutex]
    rfl
  refine ⟨?_, ?_, ?_, ?_, ?_, ?_⟩
  · rw [runCalls_gets]
  · rw [runCalls_gets]
    simp
  · rw [runCalls_gets]
    intro r hr
    simp only [List.mem_map] at hr
    obtain ⟨o, _, rfl⟩ := hr
    rw [telemetry_store_get_locked _ o hm0]
    rfl
  · rw [runCalls_append (telemetry_store_init store (some m))
      (earlier ++ [StoreCall.update t h now_us]), runCalls_gets]
  · rw [runCalls_gets]
    simp
  · rw [runCalls_gets]
    intro r hr
    simp only [List.mem_map] at hr
    obtain ⟨o, _, rfl⟩ := hr
    rw [telemetry_store_get_locked _ o hm2, hs1]
    exact ⟨rfl, rfl, rfl⟩

/-! ## Theorems: the acquisition cycle -/

theorem publishCalls_append (xs ys : List Event) :
    publishCalls (xs ++ ys) = publishCalls xs ++ publishCalls ys := by
  simp [publishCalls]

theorem udp_sender_send_frame (sender : UdpPublisherCtx) (t h : float) (sys : System) :
    (udp_sender_send sender t h sys).store = sys.store
    ∧ publishCalls (udp_sender_send sender t h sys).trace = publishCalls sys.trace := by
  unfold udp_sender_send
  split
  · exact ⟨rfl, rfl⟩
  · refine ⟨rfl, ?_⟩
    simp [publishCalls]

theorem telemetry_udp_publish_frame (wifi_enable wifi_connected : Bool) (ctx : UdpPublisherCtx)
    (t h : float) (sys : System) :
    (telemetry_udp_publish wifi_enable wifi_connected ctx t h sys).store = sys.store
    ∧ publishCalls (telemetry_udp_publish wifi_enable wifi_connected ctx t h sys).trace
        = publishCalls sys.trace := by
  unfold telemetry_udp_publish
  split
  · exact ⟨rfl, rfl⟩
  · exact udp_sender_send_frame ctx t h sys

/-- A call through the publisher binding leaves the store alone and adds one
invocation record. -/
theorem TelemetryPublisher.call_spec (cfg : Config) (p : TelemetryPublisher)
    (wifi_connected : Bool) (t h : float) (sys : System) :
    (p.call cfg wifi_connected t h sys).store = sys.store
    ∧ publishCalls (p.call cfg wifi_connected t h sys).trace
        = publishCalls sys.trace ++ [Event.publish p.publish p.ctx t h] := by
  have hrec : publishCalls (sys.trace ++ [Event.publish p.publish p.ctx t h])
      = publishCalls sys.trace ++ [Event.publish p.publish p.ctx t h] := by
    simp [publishCalls]
  unfold TelemetryPublisher.call
  split
  · exact ⟨rfl, hrec⟩
  · rename_i ctx _ _
    obtain ⟨h1, h2⟩ := telemetry_udp_publish_frame cfg.CONFIG_AHT10_WIFI_ENABLE wifi_connected
      ctx t h { sys with trace := sys.trace ++ [Event.publish p.publish p.ctx t h] }
    exact ⟨h1, h2.trans hrec⟩
  · exact ⟨rfl, hrec⟩

/-- No iteration of `sensor_task` touches the Telemetry Store. -/
theorem sensor_task_cycle_store (cfg : Config) (ctx : SensorTaskCtx) (env : CycleEnv)
    (sys : System) : (sensor_task_cycle cfg ctx env sys).store = sys.store := by
  unfold sensor_task_cycle
  simp only
  split
  · exact (TelemetryPublisher.call_spec cfg ctx.publisher _ _ _ _).1
  · rfl

/-- C5 fails as stated: on a freshly initialised store, a cycle whose sensor
read succeeds leaves the store without data (`has_data` is still `false`). -/
theorem sensor_task_cycle_store_stays_empty :
    (aht10_read ESP_OK ESP_OK { b0 := 0, b1 := 0x19, b2 := 0x99, b3 := 0x99, b4 := 0x4C, b5 := 0xCD }
        { temperature_c := 0, humidity := 0 }).1 = ESP_OK
    ∧ ¬ (sensor_task_cycle
          { CONFIG_AHT10_WIFI_ENABLE := false, CONFIG_AHT10_UDP_ENABLE := false }
          { sensor := { address := AHT10_I2C_ADDR },
            publisher := { publish := PublishFn.noop, ctx := none } }
          { write_ret := ESP_OK, read_ret := ESP_OK,
            data := { b0 := 0, b1 := 0x19, b2 := 0x99, b3 := 0x99, b4 := 0x4C, b5 := 0xCD },
            wifi_connected := false }
          { store := telemetry_store_init { sample := emptySample, mutex := none } (some 1),
            trace := [] }).store.sample.has_data = true := by
  constructor
  · rw [aht10_read_accept _ _ (by decide)]
  · rw [sensor_task_cycle_store]
    decide

/-- C5, amended: in every iteration of `sensor_task` whose `aht10_read` returns
`ESP_OK` with values `(t, h)`, the publisher binding is invoked exactly once,
with the binding's context and `(t, h)`, after the reading was logged; the
iteration leaves the Telemetry Store as it was. -/
theorem sensor_task_cycle_success (cfg : Config) (ctx : SensorTaskCtx) (env : CycleEnv)
    (sys : System) (t h : float)
    (hread : aht10_read env.write_ret env.read_ret env.data { temperature_c := 0, humidity := 0 }
      = (ESP_OK, { temperature_c := t, humidity := h })) :
    (sensor_task_cycle cfg ctx env sys).store = sys.store
    ∧ publishCalls (sensor_task_cycle cfg ctx env sys).trace
        = publishCalls sys.trace ++ [Event.publish ctx.publisher.publish ctx.publisher.ctx t h]
    ∧ sensor_task_cycle cfg ctx env sys
        = ctx.publisher.call cfg env.wifi_connected t h
            { sys with trace := sys.trace ++ [Event.log_info t h] } := by
  have hcycle : sensor_task_cycle cfg ctx env sys
      = ctx.publisher.call cfg env.wifi_connected t h
          { sys with trace := sys.trace ++ [Event.log_info t h] } := by
    unfold sensor_task_cycle
    simp [hread]
  refine ⟨sensor_task_cycle_store cfg ctx env sys, ?_, hcycle⟩
  rw [hcycle, (TelemetryPublisher.call_spec cfg ctx.publisher _ t h _).2]
  simp [publishCalls]

theorem sensor_task_cycle_success_witness :
    publishCalls (sensor_task_cycle
        { CONFIG_AHT10_WIFI_ENABLE := true, CONFIG_AHT10_UDP_ENABLE := true }
        { sensor := { address := AHT10_I2C_ADDR },
          publisher := { publish := PublishFn.udp, ctx := some { socket_fd := 3 } } }
        { write_ret := ESP_OK, read_ret := ESP_OK,
          data := { b0 := 0, b1 := 0x80, b2 := 0, b3 := 0x06, b4 := 0, b5 := 0 },
          wifi_connected := true }
        { store := { sample := emptySample, mutex := some 1 }, trace := [] }).trace
      = [Event.publish PublishFn.udp (some { socket_fd := 3 }) 25 50] :=
  (sensor_task_cycle_success _ _ _ _ 25 50 (aht10_read_mid_frame _)).2.1

/-- C6: in every iteration of `sensor_task` whose `aht10_read` returns a
non-OK result, the Telemetry Store is exactly what it was before the iteration
and the publisher is not invoked: the only action of the iteration is the
warning record. -/
theorem sensor_task_cycle_failure (cfg : Config) (ctx : SensorTaskCtx) (env : CycleEnv)
    (sys : System)
    (hfail : (aht10_read env.write_ret env.read_ret env.data
      { temperature_c := 0, humidity := 0 }).1 ≠ ESP_OK) :
    (sensor_task_cycle cfg ctx env sys).store = sys.store
    ∧ (sensor_task_cycle cfg ctx env sys).trace
        = sys.trace ++ [Event.log_warn (aht10_read env.write_ret env.read_ret env.data
            { temperature_c := 0, humidity := 0 }).1]
    ∧ publishCalls (sensor_task_cycle cfg ctx env sys).trace = publishCalls sys.trace := by
  have htrace : (sensor_task_cycle cfg ctx env sys).trace
      = sys.trace ++ [Event.log_warn (aht10_read env.write_ret env.read_ret env.data
          { temperature_c := 0, humidity := 0 }).1] := by
    unfold sensor_task_cycle
    simp [hfail]
  refine ⟨sensor_task_cycle_store cfg ctx env sys, htrace, ?_⟩
  rw [htrace]
  simp [publishCalls]

theorem sensor_task_cycle_failure_witness :
    (sensor_task_cycle
        { CONFIG_AHT10_WIFI_ENABLE := true, CONFIG_AHT10_UDP_ENABLE := true }
        { sensor := { address := AHT10_I2C_ADDR },
          publisher := { publish := PublishFn.udp, ctx := some { socket_fd := 3 } } }
        { write_ret := ESP_OK, read_ret := ESP_ERR_TIMEOUT,
          data := { b0 := 0, b1 := 0, b2 := 0, b3 := 0, b4 := 0, b5 := 0 },
          wifi_connected := true }
        { store :=
            { sample := { temperature_c := 21, humidity := 40, timestamp_ms := 7, has_data := true },
              mutex := some 1 },
          trace := [] }).store
      = { sample := { temperature_c := 21, humidity := 40, timestamp_ms := 7, has_data := true },
          mutex := some 1 } :=
  (sensor_task_cycle_failure _ _ _ _ (by
    simp [aht10_read, ESP_OK, ESP_ERR_TIMEOUT])).1

/-! ## Theorems: start-up -/

/-- C7 fails as stated: with the soft reset of `aht10_init` failing (so that
`aht10_init` returns `ESP_FAIL`), `app_main` records the error and still
creates the acquisition task. -/
theorem app_main_starts_task_after_failed_sensor_init :
    aht10_init ESP_FAIL ESP_OK ≠ ESP_OK
    ∧ app_main { CONFIG_AHT10_WIFI_ENABLE := false, CONFIG_AHT10_UDP_ENABLE := false }
        { i2c_bus_init_ret := ESP_OK, reset_ret := ESP_FAIL, init_ret := ESP_OK,
          nvs_flash_init_ret := ESP_OK, wifi_manager_init_ret := ESP_OK, udp_socket_fd := -1 }
      = BootOutcome.task_create
          { sensor := { address := AHT10_I2C_ADDR },
            publisher := { publish := PublishFn.noop, ctx := none } }
          [Event.log_error ESP_FAIL]
    ∧ ¬ ((app_main { CONFIG_AHT10_WIFI_ENABLE := false, CONFIG_AHT10_UDP_ENABLE := false }
        { i2c_bus_init_ret := ESP_OK, reset_ret := ESP_FAIL, init_ret := ESP_OK,
          nvs_flash_init_ret := ESP_OK, wifi_manager_init_ret := ESP_OK,
          udp_socket_fd := -1 }).started = false) := by
  decide

/-- A call through the publisher binding extends the trace, first by the record
of the invocation. -/
theorem TelemetryPublisher.call_trace (cfg : Config) (p : TelemetryPublisher)
    (wifi_connected : Bool) (t h : float) (sys : System) :
    ∃ rest, (p.call cfg wifi_connected t h sys).trace
      = sys.trace ++ Event.publish p.publish p.ctx t h :: rest := by
  unfold TelemetryPublisher.call
  split
  · exact ⟨[], rfl⟩
  · rename_i ctx _ _
    unfold telemetry_udp_publish
    split
    · exact ⟨[], rfl⟩
    · unfold udp_sender_send
      split
      · exact ⟨[], rfl⟩
      · exact ⟨[Event.sendto ctx.socket_fd t h], by simp⟩
  · exact ⟨[], rfl⟩

/-- Every iteration of `sensor_task` performs `aht10_read` and records its
outcome: the warning with the error code, or first the decoded reading. -/
theorem sensor_task_cycle_outcome (cfg : Config) (ctx : SensorTaskCtx) (env : CycleEnv)
    (sys : System) :
    ((aht10_read env.write_ret env.read_ret env.data
        { temperature_c := 0, humidity := 0 }).1 ≠ ESP_OK →
      (sensor_task_cycle cfg ctx env sys).trace
        = sys.trace ++ [Event.log_warn (aht10_read env.write_ret env.read_ret env.data
            { temperature_c := 0, humidity := 0 }).1])
    ∧ ((aht10_read env.write_ret env.read_ret env.data
        { temperature_c := 0, humidity := 0 }).1 = ESP_OK →
      ∃ rest, (sensor_task_cycle cfg ctx env sys).trace
        = sys.trace ++ Event.log_info
            (aht10_read env.write_ret env.read_ret env.data
              { temperature_c := 0, humidity := 0 }).2.temperature_c
            (aht10_read env.write_ret env.read_ret env.data
              { temperature_c := 0, humidity := 0 }).2.humidity :: rest) := by
  constructor
  · intro hfail
    unfold sensor_task_cycle
    simp [hfail]
  · intro hok
    obtain ⟨rest, hrest⟩ := TelemetryPublisher.call_trace cfg ctx.publisher env.wifi_connected
      (aht10_read env.write_ret env.read_ret env.data
        { temperature_c := 0, humidity := 0 }).2.temperature_c
      (aht10_read env.write_ret env.read_ret env.data
        { temperature_c := 0, humidity := 0 }).2.humidity
      { sys with trace := sys.trace ++ [Event.log_info
          (aht10_read env.write_ret env.read_ret env.data
            { temperature_c := 0, humidity := 0 }).2.temperature_c
          (aht10_read env.write_ret env.read_ret env.data
            { temperature_c := 0, humidity := 0 }).2.humidity] }
    refine ⟨Event.publish ctx.publisher.publish ctx.publisher.ctx
      (aht10_read env.write_ret env.read_ret env.data
        { temperature_c := 0, humidity := 0 }).2.temperature_c
      (aht10_read env.write_ret env.read_ret env.data
        { temperature_c := 0, humidity := 0 }).2.humidity :: rest, ?_⟩
    unfold sensor_task_cycle
    simp only [hok, if_true]
    rw [hrest]
    simp

/-- C7, amended: a failure of `aht10_init` is not fatal for acquisition.
Whenever `aht10_init` returns a non-OK result, `app_main` goes on as after a
successful `aht10_init`, apart from the error record: if `i2c_bus_init`
returned non-OK the process was aborted before; if, with WiFi enabled,
`nvs_flash_init` or `wifi_manager_init` returns non-OK the process aborts after
the error record; otherwise the acquisition task is started, with the task
context it also gets after a successful `aht10_init`, and every iteration of
the started task performs the sensor read and records its outcome (the warning
with the error code, or the decoded reading). -/
theorem app_main_sensor_init_failure_not_fatal (cfg : Config) (env : BootEnv)
    (hsensor : aht10_init env.reset_ret env.init_ret ≠ ESP_OK) :
    app_main cfg env
      = (if env.i2c_bus_init_ret ≠ ESP_OK then BootOutcome.abort []
         else if cfg.CONFIG_AHT10_WIFI_ENABLE = true
              ∧ (env.nvs_flash_init_ret ≠ ESP_OK ∨ env.wifi_manager_init_ret ≠ ESP_OK) then
           BootOutcome.abort [Event.log_error (aht10_init env.reset_ret env.init_ret)]
         else
           BootOutcome.task_create
             { sensor := { address := AHT10_I2C_ADDR },
               publisher :=
                 if cfg.CONFIG_AHT10_WIFI_ENABLE = true ∧ cfg.CONFIG_AHT10_UDP_ENABLE = true then
                   { publish := PublishFn.udp, ctx := some { socket_fd := env.udp_socket_fd } }
                 else { publish := PublishFn.noop, ctx := none } }
             [Event.log_error (aht10_init env.reset_ret env.init_ret)])
    ∧ (∀ task_ctx trace, app_main cfg env = BootOutcome.task_create task_ctx trace →
        trace = [Event.log_error (aht10_init env.reset_ret env.init_ret)]
        ∧ app_main cfg { env with reset_ret := ESP_OK, init_ret := ESP_OK }
            = BootOutcome.task_create task_ctx []
        ∧ ∀ (cycle : CycleEnv) (sys : System),
            ((aht10_read cycle.write_ret cycle.read_ret cycle.data
                { temperature_c := 0, humidity := 0 }).1 ≠ ESP_OK →
              (sensor_task_cycle cfg task_ctx cycle sys).trace
                = sys.trace ++ [Event.log_warn (aht10_read cycle.write_ret cycle.read_ret
                    cycle.data { temperature_c := 0, humidity := 0 }).1])
            ∧ ((aht10_read cycle.write_ret cycle.read_ret cycle.data
                { temperature_c := 0, humidity := 0 }).1 = ESP_OK →
              ∃ rest, (sensor_task_cycle cfg task_ctx cycle sys).trace
                = sys.trace ++ Event.log_info
                    (aht10_read cycle.write_ret cycle.read_ret cycle.data
                      { temperature_c := 0, humidity := 0 }).2.temperature_c
                    (aht10_read cycle.write_ret cycle.read_ret cycle.data
                      { temperature_c := 0, humidity := 0 }).2.humidity :: rest))
    ∧ (app_main cfg env).started
        = (app_main cfg { env with reset_ret := ESP_OK, init_ret := ESP_OK }).started := by
  have hok : aht10_init ESP_OK ESP_OK = ESP_OK := rfl
  have hshape : ∀ e : BootEnv, app_main cfg e
      = (if e.i2c_bus_init_ret ≠ ESP_OK then BootOutcome.abort []
         else if cfg.CONFIG_AHT10_WIFI_ENABLE = true
              ∧ (e.nvs_flash_init_ret ≠ ESP_OK ∨ e.wifi_manager_init_ret ≠ ESP_OK) then
           BootOutcome.abort (if aht10_init e.reset_ret e.init_ret ≠ ESP_OK
             then [Event.log_error (aht10_init e.reset_ret e.init_ret)] else [])
         else
           BootOutcome.task_create
             { sensor := { address := AHT10_I2C_ADDR },
               publisher :=
                 if cfg.CONFIG_AHT10_WIFI_ENABLE = true ∧ cfg.CONFIG_AHT10_UDP_ENABLE = true then
                   { publish := PublishFn.udp, ctx := some { socket_fd := e.udp_socket_fd } }
                 else { publish := PublishFn.noop, ctx := none } }
             (if aht10_init e.reset_ret e.init_ret ≠ ESP_OK
               then [Event.log_error (aht10_init e.reset_ret e.init_ret)] else [])) := by
    intro e
    unfold app_main
    by_cases hb : e.i2c_bus_init_ret = ESP_OK
    · cases hw : cfg.CONFIG_AHT10_WIFI_ENABLE with
      | false => simp [hb]
      | true =>
        by_cases hn : e.nvs_flash_init_ret = ESP_OK
        · by_cases hwm : e.wifi_manager_init_ret = ESP_OK
          · cases hu : cfg.CONFIG_AHT10_UDP_ENABLE <;> simp [hb, hn, hwm]
          · simp [hb, hn, hwm]
        · simp [hb, hn]
    · simp [hb]
  have h1 := hshape env
  have h2 := hshape { env with reset_ret := ESP_OK, init_ret := ESP_OK }
  simp only [hok, ne_eq, not_true_eq_false, if_false] at h2
  simp only [if_pos hsensor] at h1
  refine ⟨h1, ?_, ?_⟩
  · intro task_ctx trace hstart
    rw [h1] at hstart
    rw [h2]
    by_cases ha : env.i2c_bus_init_ret = ESP_OK
    · by_cases hb : cfg.CONFIG_AHT10_WIFI_ENABLE = true
          ∧ (env.nvs_flash_init_ret ≠ ESP_OK ∨ env.wifi_manager_init_ret ≠ ESP_OK)
      · simp only [ha, ne_eq, not_true_eq_false, if_false, if_pos hb] at hstart
        exact BootOutcome.noConfusion hstart
      · simp only [ha, ne_eq, not_true_eq_false, if_false, if_neg hb] at hstart
        injection hstart with hctx htrace
        refine ⟨htrace.symm, ?_, fun cycle sys => sensor_task_cycle_outcome cfg task_ctx cycle sys⟩
        simp only [ha, not_true_eq_false, if_false]
        rw [if_neg hb, hctx]
    · simp only [ne_eq, ha, not_false_eq_true, if_true] at hstart
      exact BootOutcome.noConfusion hstart
  · rw [h1, h2]
    by_cases ha : env.i2c_bus_init_ret = ESP_OK
    · by_cases hb : cfg.CONFIG_AHT10_WIFI_ENABLE = true
          ∧ (env.nvs_flash_init_ret ≠ ESP_OK ∨ env.wifi_manager_init_ret ≠ ESP_OK)
      · simp only [ha, ne_eq, not_true_eq_false, if_false]
        rw [if_pos hb, if_pos hb]
        rfl
      · simp only [ha, ne_eq, not_true_eq_false, if_false]
        rw [if_neg hb, if_neg hb]
        rfl
    · simp only [ne_eq, ha, not_false_eq_true, if_true]

theorem app_main_sensor_init_failure_not_fatal_witness :
    app_main { CONFIG_AHT10_WIFI_ENABLE := true, CONFIG_AHT10_UDP_ENABLE := true }
        { i2c_bus_init_ret := ESP_OK, reset_ret := ESP_OK, init_ret := ESP_ERR_TIMEOUT,
          nvs_flash_init_ret := ESP_OK, wifi_manager_init_ret := ESP_OK,
          udp_socket_fd := 3 }
      = BootOutcome.task_create
          { sensor := { address := AHT10_I2C_ADDR },
            publisher := { publish := PublishFn.udp, ctx := some { socket_fd := 3 } } }
          [Event.log_error ESP_ERR_TIMEOUT] :=
  (app_main_sensor_init_failure_not_fatal
    { CONFIG_AHT10_WIFI_ENABLE := true, CONFIG_AHT10_UDP_ENABLE := true }
    { i2c_bus_init_ret := ESP_OK, reset_ret := ESP_OK, init_ret := ESP_ERR_TIMEOUT,
      nvs_flash_init_ret := ESP_OK, wifi_manager_init_ret := ESP_OK, udp_socket_fd := 3 }
    (by decide)).1

/-! ## Theorems: the error values -/

/-- C8 fails as stated: the result of `aht10_read` for a busy frame is the very
value it returns when the bus read transaction times out (`i2c_bus_read`
handing back the driver's `ESP_ERR_TIMEOUT`), and the caller's outputs are the
same in both cases. -/
theorem aht10_read_busy_equals_bus_timeout :
    i2c_bus_read (fun _ _ => ESP_ERR_TIMEOUT) 1000 AHT10_I2C_ADDR 6 = ESP_ERR_TIMEOUT
    ∧ ¬ ((aht10_read ESP_OK ESP_OK
            { b0 := 0x80, b1 := 0, b2 := 0, b3 := 0, b4 := 0, b5 := 0 }
            { temperature_c := 0, humidity := 0 }).1
          ≠ i2c_bus_read (fun _ _ => ESP_ERR_TIMEOUT) 1000 AHT10_I2C_ADDR 6)
    ∧ aht10_read ESP_OK ESP_OK
          { b0 := 0x80, b1 := 0, b2 := 0, b3 := 0, b4 := 0, b5 := 0 }
          { temperature_c := 0, humidity := 0 }
        = aht10_read ESP_OK (i2c_bus_read (fun _ _ => ESP_ERR_TIMEOUT) 1000 AHT10_I2C_ADDR 6)
          { b0 := 0, b1 := 0, b2 := 0, b3 := 0, b4 := 0, b5 := 0 }
          { temperature_c := 0, humidity := 0 } := by
  decide

/-- C8, amended: the result of `aht10_read` for a busy frame is
`ESP_ERR_TIMEOUT`.  It differs from `ESP_OK`, and among the non-OK results `e`
that the bus read can hand back it coincides with exactly one, the bus
timeout `ESP_ERR_TIMEOUT`: a caller can tell a busy device from success and
from every other bus error, but not from a timed-out bus transaction. -/
theorem aht10_read_busy_result (data other : Frame) (out : Reading) (e : esp_err_t)
    (hbusy : data.b0.testBit 7 = true) (he : e ≠ ESP_OK) :
    (aht10_read ESP_OK ESP_OK data out).1 = ESP_ERR_TIMEOUT
    ∧ (aht10_read ESP_OK ESP_OK data out).1 ≠ ESP_OK
    ∧ (aht10_read ESP_OK e other out).1 = e
    ∧ ((aht10_read ESP_OK ESP_OK data out).1 = (aht10_read ESP_OK e other out).1
        ↔ e = ESP_ERR_TIMEOUT)
    ∧ (e = ESP_ERR_TIMEOUT →
        aht10_read ESP_OK ESP_OK data out = aht10_read ESP_OK e other out) := by
  have hbus : aht10_read ESP_OK e other out = (e, out) := by
    simp [aht10_read, he]
  rw [aht10_read_busy data out hbusy, hbus]
  refine ⟨rfl, ESP_ERR_TIMEOUT_ne_ESP_OK, rfl, ?_, ?_⟩
  · exact ⟨fun h => h.symm, fun h => h.symm⟩
  · intro h
    rw [h]

theorem aht10_read_busy_result_witness :
    ((aht10_read ESP_OK ESP_OK { b0 := 0x80, b1 := 0, b2 := 0, b3 := 0, b4 := 0, b5 := 0 }
          { temperature_c := 0, humidity := 0 }).1
        = (aht10_read ESP_OK ESP_FAIL { b0 := 0, b1 := 0, b2 := 0, b3 := 0, b4 := 0, b5 := 0 }
          { temperature_c := 0, humidity := 0 }).1
      ↔ ESP_FAIL = ESP_ERR_TIMEOUT) :=
  (aht10_read_busy_result { b0 := 0x80, b1 := 0, b2 := 0, b3 := 0, b4 := 0, b5 := 0 }
    { b0 := 0, b1 := 0, b2 := 0, b3 := 0, b4 := 0, b5 := 0 }
    { temperature_c := 0, humidity := 0 } ESP_FAIL (by decide) (by decide)).2.2.2.1

/-! ## Theorems: the bus read transaction -/

theorem bytesRead_append (xs ys : List I2cCmd) :
    bytesRead (xs ++ ys) = bytesRead xs ++ bytesRead ys := by
  simp [bytesRead]

/-- C9: for every length `len >= 1`, the one transaction `i2c_bus_read` hands to
the driver is: start; the address byte `(addr << 1) | I2C_MASTER_READ` (as a
`uint8_t`, which for a 7-bit address is `2 * addr + 1`) with acknowledgement
checking; for `len > 1` a read of `len - 1` bytes with ACK into
`data[0 .. len-2]`; a read of one byte with NACK into `data[len-1]`; stop.
Exactly `len` bytes are read, byte `k` goes to `data[k]`, and it is
acknowledged exactly when it is not the last. -/
theorem i2c_bus_read_transaction (drv : List I2cCmd → Nat → esp_err_t) (timeout_ms : Nat)
    (addr len : Nat) (hlen : 1 ≤ len) :
    i2c_bus_read drv timeout_ms addr len
        = drv ([I2cCmd.start,
                I2cCmd.write_byte (((addr <<< 1) ||| I2C_MASTER_READ) % 256) true]
              ++ (if len = 1 then [] else [I2cCmd.read 0 (len - 1) I2C_MASTER_ACK])
              ++ [I2cCmd.read_byte ((len : Int) - 1) I2C_MASTER_NACK, I2cCmd.stop]) timeout_ms
    ∧ (addr < 128 → ((addr <<< 1) ||| I2C_MASTER_READ) % 256 = 2 * addr + 1)
    ∧ bytesRead (i2c_bus_read_link addr len)
        = (List.range (len - 1)).map (fun (k : Nat) => ((k : Int), true)) ++ [((len : Int) - 1, false)]
    ∧ (bytesRead (i2c_bus_read_link addr len)).length = len
    ∧ (∀ k, k < len →
        (bytesRead (i2c_bus_read_link addr len))[k]? = some ((k : Int), decide (k + 1 < len))) := by
  have hbytes : bytesRead (i2c_bus_read_link addr len)
      = (List.range (len - 1)).map (fun (k : Nat) => ((k : Int), true))
        ++ [((len : Int) - 1, false)] := by
    unfold i2c_bus_read_link
    by_cases h1 : len > 1
    · simp [h1, bytesRead, I2cCmd.bytesRead]
    · have h0 : len = 1 := by omega
      subst h0
      simp [bytesRead, I2cCmd.bytesRead]
  refine ⟨?_, ?_, hbytes, ?_, ?_⟩
  · unfold i2c_bus_read i2c_bus_read_link u8
    by_cases h1 : len = 1
    · subst h1
      simp
    · have h2 : len > 1 := by omega
      simp [h1, h2]
  · intro ha
    have hshift : addr <<< 1 = 2 * addr := by
      rw [Nat.shiftLeft_eq]
      omega
    have hor : (2 * addr) ||| 1 = 2 * addr + 1 := by
      have := Nat.mul_add_lt_is_or (show 1 < 2 ^ 1 by decide) addr
      simp at this
      exact this.symm
    rw [hshift]
    show ((2 * addr) ||| 1) % 256 = 2 * addr + 1
    rw [hor]
    omega
  · rw [hbytes]
    simp
    omega
  · intro k hk
    rw [hbytes]
    by_cases hlast : k + 1 < len
    · rw [List.getElem?_append_left (by simp; omega)]
      have hr : (List.range (len - 1))[k]? = some k :=
        List.getElem?_range (show k < len - 1 by omega)
      simp [hlast, hr]
    · have hk1 : k = len - 1 := by omega
      rw [List.getElem?_append_right (by simp; omega)]
      simp [hk1]
      omega

theorem i2c_bus_read_transaction_witness :
    bytesRead (i2c_bus_read_link AHT10_I2C_ADDR 6)
      = [(0, true), (1, true), (2, true), (3, true), (4, true), (5, false)] :=
  (i2c_bus_read_transaction (fun _ _ => ESP_OK) 1000 AHT10_I2C_ADDR 6 (by decide)).2.2.1

/-! ## Theorems: the Telemetry Store under interleaving -/

theorem Conc.Inv_init : Conc.init.Inv where
  writer_cs := by simp [Conc.init, WPc.inCS]
  reader_cs := by simp [Conc.init, RPc.inCS]
  stable := fun _ => ⟨[], rfl⟩
  writer_ok := trivial
  reader_ok := fun _ => trivial
  whole := by simp [Conc.init]

/-- Progress facts of a reader survive a change of the state that keeps the
stored record, or happens while the reader is outside its critical section, and
that only extends the history. -/
theorem RPc.ok_mono {pc : RPc} {sample sample2 : TelemetrySample}
    {history history2 : List TelemetrySample} (h : pc.ok sample history)
    (hs : pc.inCS = true → sample2 = sample) (hh : ∀ r ∈ history, r ∈ history2) :
    pc.ok sample2 history2 := by
  cases pc with
  | idle => trivial
  | take out => trivial
  | c_temp out => trivial
  | c_hum out => rw [hs rfl]; exact h
  | c_ts out => rw [hs rfl]; exact h
  | c_has out => rw [hs rfl]; exact h
  | r_has out => rw [hs rfl]; exact h
  | give out hd => rw [hs rfl]; exact h
  | done out hd => exact ⟨hh _ h.1, h.2⟩
  | failed out => trivial

theorem WPc.ok_calls {pc : WPc} {sample : TelemetrySample} {calls calls2 : List (float × float)}
    (h : pc.ok sample calls) (hc : ∀ c ∈ calls, c ∈ calls2) : pc.ok sample calls2 := by
  cases pc with
  | idle => trivial
  | take t h0 => exact hc _ h
  | w_temp t h0 => exact hc _ h
  | w_hum t h0 => exact ⟨hc _ h.1, h.2⟩
  | w_ts t h0 => exact ⟨hc _ h.1, h.2⟩
  | w_has t h0 => exact ⟨hc _ h.1, h.2⟩
  | give t h0 => exact ⟨hc _ h.1, h.2⟩

/-- While the writer holds the mutex no reader is in its critical section. -/
theorem Conc.Inv.readers_outside {s : Conc} (inv : s.Inv) (hw : s.owner = some Tid.writer)
    (i : Nat) : (s.readers i).inCS = false := by
  cases hcs : (s.readers i).inCS with
  | false => rfl
  | true =>
    have := (inv.reader_cs i).2 hcs
    rw [hw] at this
    exact Tid.noConfusion (Option.some.inj this)

/-- A write of the writer inside its critical section keeps the invariant. -/
theorem Conc.Inv.write {s : Conc} (inv : s.Inv) (hw : s.owner = some Tid.writer)
    (sample2 : TelemetrySample) (pc2 : WPc) (hcs : pc2.inCS = true)
    (hok : pc2.ok sample2 s.calls) :
    ({ s with sample := sample2, writer := pc2 } : Conc).Inv where
  writer_cs := by simp [hw, hcs]
  reader_cs := inv.reader_cs
  stable := fun hne => absurd hw hne
  writer_ok := hok
  reader_ok := fun i =>
    RPc.ok_mono (inv.reader_ok i)
      (fun h => absurd h (by rw [inv.readers_outside hw i]; decide)) (fun _ hr => hr)
  whole := inv.whole

theorem Conc.Inv_writerStep {s : Conc} (inv : s.Inv) (now_us : Int) :
    (s.writerStep now_us).Inv := by
  unfold Conc.writerStep
  cases hpc : s.writer with
  | idle => simpa [hpc] using inv
  | take t h =>
    simp only
    have hok := inv.writer_ok
    rw [hpc] at hok
    split
    · rename_i hfree
      exact
        { writer_cs := by simp [WPc.inCS]
          reader_cs := fun i => by
            have := inv.reader_cs i
            rw [hfree] at this
            simpa using this
          stable := fun hne => absurd rfl hne
          writer_ok := hok
          reader_ok := inv.reader_ok
          whole := inv.whole }
    · exact inv
  | w_temp t h =>
    have hw : s.owner = some Tid.writer := inv.writer_cs.2 (by rw [hpc]; rfl)
    have hok := inv.writer_ok
    rw [hpc] at hok
    exact inv.write hw _ _ rfl ⟨hok, rfl⟩
  | w_hum t h =>
    have hw : s.owner = some Tid.writer := inv.writer_cs.2 (by rw [hpc]; rfl)
    have hok := inv.writer_ok
    rw [hpc] at hok
    exact inv.write hw _ _ rfl ⟨hok.1, hok.2, rfl⟩
  | w_ts t h =>
    have hw : s.owner = some Tid.writer := inv.writer_cs.2 (by rw [hpc]; rfl)
    have hok := inv.writer_ok
    rw [hpc] at hok
    exact inv.write hw _ _ rfl ⟨hok.1, hok.2.1, hok.2.2⟩
  | w_has t h =>
    have hw : s.owner = some Tid.writer := inv.writer_cs.2 (by rw [hpc]; rfl)
    have hok := inv.writer_ok
    rw [hpc] at hok
    exact inv.write hw _ _ rfl ⟨hok.1, hok.2.1, hok.2.2, rfl⟩
  | give t h =>
    have hw : s.owner = some Tid.writer := inv.writer_cs.2 (by rw [hpc]; rfl)
    have hok := inv.writer_ok
    rw [hpc] at hok
    exact
      { writer_cs := by simp [WPc.inCS]
        reader_cs := fun i => by
          have := inv.readers_outside hw i
          simp [this]
        stable := fun _ => ⟨s.history, rfl⟩
        writer_ok := trivial
        reader_ok := fun i =>
          RPc.ok_mono (inv.reader_ok i) (fun _ => rfl) (fun _ hr => List.mem_append_left _ hr)
        whole := fun r hr => by
          rcases List.mem_append.1 hr with h1 | h1
          · exact inv.whole r h1
          · rw [List.mem_singleton] at h1
            subst h1
            exact Or.inr ⟨hok.2.2.2, by rw [hok.2.1, hok.2.2.1]; exact hok.1⟩ }

/-- A move of reader `i` that keeps the mutex where it is and keeps the reader
on the same side of its critical section keeps the invariant. -/
theorem Conc.Inv.move {s : Conc} (inv : s.Inv) (i : Nat) (pc2 : RPc)
    (hcs : pc2.inCS = (s.readers i).inCS) (hok : pc2.ok s.sample s.history) :
    (s.setReader i pc2).Inv where
  writer_cs := inv.writer_cs
  reader_cs := fun j => by
    show s.owner = some (Tid.reader j) ↔ (if j = i then pc2 else s.readers j).inCS = true
    by_cases hji : j = i
    · subst hji
      rw [if_pos rfl, hcs]
      exact inv.reader_cs j
    · rw [if_neg hji]
      exact inv.reader_cs j
  stable := inv.stable
  writer_ok := inv.writer_ok
  reader_ok := fun j => by
    show (if j = i then pc2 else s.readers j).ok s.sample s.history
    by_cases hji : j = i
    · rw [if_pos hji]
      exact hok
    · rw [if_neg hji]
      exact inv.reader_ok j
  whole := inv.whole

/-- Reader `i` obtains the free mutex. -/
theorem Conc.Inv.reader_take {s : Conc} (inv : s.Inv) (i : Nat) (out : TelemetrySample)
    (hfree : s.owner = none) :
    ({ s.setReader i (RPc.c_temp out) with owner := some (Tid.reader i) } : Conc).Inv where
  writer_cs := by
    have := inv.writer_cs
    rw [hfree] at this
    simpa [Conc.setReader] using this
  reader_cs := fun j => by
    show some (Tid.reader i) = some (Tid.reader j)
      ↔ (if j = i then RPc.c_temp out else s.readers j).inCS = true
    by_cases hji : j = i
    · subst hji
      simp [RPc.inCS]
    · rw [if_neg hji]
      have := inv.reader_cs j
      rw [hfree] at this
      constructor
      · intro h
        exact absurd (Tid.reader.inj (Option.some.inj h)).symm hji
      · intro h
        exact absurd (this.2 h) (by simp)
  stable := fun _ => inv.stable (by rw [hfree]; simp)
  writer_ok := inv.writer_ok
  reader_ok := fun j => by
    show (if j = i then RPc.c_temp out else s.readers j).ok s.sample s.history
    by_cases hji : j = i
    · rw [if_pos hji]
      trivial
    · rw [if_neg hji]
      exact inv.reader_ok j
  whole := inv.whole

/-- Reader `i` releases the mutex and returns its snapshot. -/
theorem Conc.Inv.reader_give {s : Conc} (inv : s.Inv) (i : Nat) (out : TelemetrySample)
    (hd : Bool) (hpc : s.readers i = RPc.give out hd) :
    ({ s.setReader i (RPc.done out hd) with owner := none } : Conc).Inv := by
  have hown : s.owner = some (Tid.reader i) := (inv.reader_cs i).2 (by rw [hpc]; rfl)
  have hok := inv.reader_ok i
  rw [hpc] at hok
  obtain ⟨older, hhist⟩ := inv.stable (by rw [hown]; simp)
  exact
    { writer_cs := by
        have := inv.writer_cs
        rw [hown] at this
        simpa [Conc.setReader] using this
      reader_cs := fun j => by
        show none = some (Tid.reader j)
          ↔ (if j = i then RPc.done out hd else s.readers j).inCS = true
        by_cases hji : j = i
        · rw [if_pos hji]
          simp [RPc.inCS]
        · rw [if_neg hji]
          have := inv.reader_cs j
          rw [hown] at this
          constructor
          · intro h
            exact absurd h (by simp)
          · intro h
            exact absurd (Tid.reader.inj (Option.some.inj (this.2 h))) (fun e => hji e.symm)
      stable := fun _ => ⟨older, hhist⟩
      writer_ok := inv.writer_ok
      reader_ok := fun j => by
        show (if j = i then RPc.done out hd else s.readers j).ok s.sample s.history
        by_cases hji : j = i
        · rw [if_pos hji]
          refine ⟨?_, ?_⟩
          · rw [hok.1, hhist]
            simp
          · rw [hok.2, hok.1]
        · rw [if_neg hji]
          exact inv.reader_ok j
      whole := inv.whole }

theorem Conc.Inv_readerStep {s : Conc} (inv : s.Inv) (i : Nat) : (s.readerStep i).Inv := by
  unfold Conc.readerStep
  have hok := inv.reader_ok i
  cases hpc : s.readers i with
  | idle => simpa [hpc] using inv
  | done out hd => simpa [hpc] using inv
  | failed out => simpa [hpc] using inv
  | take out =>
    simp only
    split
    · rename_i hfree
      exact inv.reader_take i out hfree
    · exact inv
  | c_temp out =>
    exact inv.move i _ (by rw [hpc]; rfl) rfl
  | c_hum out =>
    rw [hpc] at hok
    exact inv.move i _ (by rw [hpc]; rfl) ⟨hok, rfl⟩
  | c_ts out =>
    rw [hpc] at hok
    exact inv.move i _ (by rw [hpc]; rfl) ⟨hok.1, hok.2, rfl⟩
  | c_has out =>
    rw [hpc] at hok
    obtain ⟨h1, h2, h3⟩ := hok
    refine inv.move i _ (by rw [hpc]; rfl) ?_
    show ({ out with has_data := s.sample.has_data } : TelemetrySample) = s.sample
    cases out
    cases hs : s.sample
    rw [hs] at h1 h2 h3
    simp at h1 h2 h3
    simp [h1, h2, h3]
  | r_has out =>
    rw [hpc] at hok
    exact inv.move i _ (by rw [hpc]; rfl) ⟨hok, rfl⟩
  | give out hd =>
    exact inv.reader_give i out hd hpc

theorem Conc.Inv_step {s : Conc} (inv : s.Inv) (a : Action) : (s.step a).Inv := by
  cases a with
  | update_call t h =>
    show (match s.writer with
      | WPc.idle => { s with writer := WPc.take t h, calls := s.calls ++ [(t, h)] }
      | _ => s).Inv
    cases hpc : s.writer with
    | idle =>
      exact
        { writer_cs := by
            have := inv.writer_cs
            rw [hpc] at this
            simpa [WPc.inCS] using this
          reader_cs := inv.reader_cs
          stable := inv.stable
          writer_ok := by
            show (t, h) ∈ s.calls ++ [(t, h)]
            simp
          reader_ok := inv.reader_ok
          whole := fun r hr => by
            rcases inv.whole r hr with h1 | h1
            · exact Or.inl h1
            · exact Or.inr ⟨h1.1, List.mem_append_left _ h1.2⟩ }
    | take _ _ => simpa [hpc] using inv
    | w_temp _ _ => simpa [hpc] using inv
    | w_hum _ _ => simpa [hpc] using inv
    | w_ts _ _ => simpa [hpc] using inv
    | w_has _ _ => simpa [hpc] using inv
    | give _ _ => simpa [hpc] using inv
  | writer_step now_us => exact Conc.Inv_writerStep inv now_us
  | writer_take_fails =>
    show (match s.writer with
      | WPc.take _ _ => { s with writer := WPc.idle }
      | _ => s).Inv
    cases hpc : s.writer with
    | take t h =>
      exact
        { writer_cs := by
            have := inv.writer_cs
            rw [hpc] at this
            simpa [WPc.inCS] using this
          reader_cs := inv.reader_cs
          stable := inv.stable
          writer_ok := trivial
          reader_ok := inv.reader_ok
          whole := inv.whole }
    | idle => simpa [hpc] using inv
    | w_temp _ _ => simpa [hpc] using inv
    | w_hum _ _ => simpa [hpc] using inv
    | w_ts _ _ => simpa [hpc] using inv
    | w_has _ _ => simpa [hpc] using inv
    | give _ _ => simpa [hpc] using inv
  | get_call i out =>
    show (if (s.readers i).outside then s.setReader i (RPc.take out) else s).Inv
    split
    · rename_i hout
      refine inv.move i (RPc.take out) ?_ trivial
      cases hpc : s.readers i <;> rw [hpc] at hout <;> first | rfl | exact Bool.noConfusion hout
    · exact inv
  | reader_step i => exact Conc.Inv_readerStep inv i
  | reader_take_fails i =>
    show (match s.readers i with
      | RPc.take out => s.setReader i (RPc.failed out)
      | _ => s).Inv
    cases hpc : s.readers i with
    | take out => exact inv.move i (RPc.failed out) (by rw [hpc]; rfl) trivial
    | idle => simpa [hpc] using inv
    | c_temp _ => simpa [hpc] using inv
    | c_hum _ => simpa [hpc] using inv
    | c_ts _ => simpa [hpc] using inv
    | c_has _ => simpa [hpc] using inv
    | r_has _ => simpa [hpc] using inv
    | give _ _ => simpa [hpc] using inv
    | done _ _ => simpa [hpc] using inv
    | failed _ => simpa [hpc] using inv

theorem Conc.Inv_run {s : Conc} (inv : s.Inv) (schedule : List Action) :
    (s.run schedule).Inv := by
  induction schedule generalizing s with
  | nil => exact inv
  | cons a rest ih => exact ih (Conc.Inv_step inv a)

/-- C10: snapshot atomicity of the Telemetry Store.  Under every interleaving of
the statements of one writer task running `telemetry_store_update` calls with
any number of reader tasks running `telemetry_store_get` calls, every snapshot
a `get` returns after copying under the lock is a record of the history, that
is the initial empty record or the record as a single completed update left
it: its presence flag is the returned flag, and unless it is the initial
record its flag is set and its temperature and humidity are the two arguments
of one and the same update call. -/
theorem telemetry_store_snapshot_atomicity (schedule : List Action) (i : Nat)
    (out : TelemetrySample) (has_data : Bool)
    (hdone : (Conc.init.run schedule).readers i = RPc.done out has_data) :
    out ∈ (Conc.init.run schedule).history
    ∧ has_data = out.has_data
    ∧ (out = emptySample
        ∨ (out.has_data = true
            ∧ (out.temperature_c, out.humidity) ∈ (Conc.init.run schedule).calls)) := by
  have inv := Conc.Inv_run Conc.Inv_init schedule
  have hok := inv.reader_ok i
  rw [hdone] at hok
  exact ⟨hok.1, hok.2, inv.whole out hok.1⟩

theorem telemetry_store_snapshot_atomicity_witness :
    ({ temperature_c := 21, humidity := 40, timestamp_ms := 5, has_data := true }
        : TelemetrySample)
      ∈ (Conc.init.run
          [Action.update_call 21 40, Action.writer_step 0, Action.writer_step 0,
           Action.get_call 0 emptySample, Action.reader_step 0, Action.writer_step 0,
           Action.get_call 1 emptySample, Action.writer_step 5000, Action.reader_step 1,
           Action.writer_step 0, Action.writer_step 0,
           Action.reader_step 0, Action.update_call 22 41, Action.writer_step 0,
           Action.reader_step 0, Action.reader_step 0, Action.reader_step 0,
           Action.reader_step 0, Action.reader_step 0, Action.reader_step 0,
           Action.writer_step 0, Action.writer_step 0]).history :=
  (telemetry_store_snapshot_atomicity
      [Action.update_call 21 40, Action.writer_step 0, Action.writer_step 0,
       Action.get_call 0 emptySample, Action.reader_step 0, Action.writer_step 0,
       Action.get_call 1 emptySample, Action.writer_step 5000, Action.reader_step 1,
       Action.writer_step 0, Action.writer_step 0,
       Action.reader_step 0, Action.update_call 22 41, Action.writer_step 0,
       Action.reader_step 0, Action.reader_step 0, Action.reader_step 0,
       Action.reader_step 0, Action.reader_step 0, Action.reader_step 0,
       Action.writer_step 0, Action.writer_step 0]
    0 { temperature_c := 21, humidity := 40, timestamp_ms := 5, has_data := true } true rfl).1


/-! ## Theorems: the range of the decoded values -/

/-- C11: the decoder clamps nothing, yet for every 6-byte frame accepted by
`aht10_read` (both bus transactions successful, bit 7 of byte 0 clear, the
other 47 bits arbitrary) its outputs lie in the physical range of the sensor:
`0 <= humidity < 100` and `-50 <= temperature_c < 150`, both for the binary32
values the code computes and for the exact values of the two formulas; and
replacing byte 0 by any other value with bit 7 clear changes neither the
result nor the outputs. -/
theorem aht10_read_physical_range (data : Frame) (out : Reading) (b0 : Nat)
    (hbytes : data.IsBytes) (hready : data.b0.testBit 7 = false)
    (hb0 : b0.testBit 7 = false) :
    (aht10_read ESP_OK ESP_OK data out).1 = ESP_OK
    ∧ 0 ≤ (aht10_read ESP_OK ESP_OK data out).2.humidity
    ∧ (aht10_read ESP_OK ESP_OK data out).2.humidity < 100
    ∧ -50 ≤ (aht10_read ESP_OK ESP_OK data out).2.temperature_c
    ∧ (aht10_read ESP_OK ESP_OK data out).2.temperature_c < 150
    ∧ 0 ≤ (raw_humidity data : ℚ) / 2 ^ 20 * 100
    ∧ (raw_humidity data : ℚ) / 2 ^ 20 * 100 < 100
    ∧ -50 ≤ (raw_temp data : ℚ) / 2 ^ 20 * 200 - 50
    ∧ (raw_temp data : ℚ) / 2 ^ 20 * 200 - 50 < 150
    ∧ aht10_read ESP_OK ESP_OK { data with b0 := b0 } out
        = aht10_read ESP_OK ESP_OK data out := by
  have hh := f32_humidity_bounds (raw_humidity data) (raw_humidity_lt data hbytes)
  have ht := f32_temp_bounds (raw_temp data) (raw_temp_lt data hbytes)
  have eh : (raw_humidity data : ℚ) < 1048576 := by
    exact_mod_cast raw_humidity_lt data hbytes
  have et : (raw_temp data : ℚ) < 1048576 := by
    exact_mod_cast raw_temp_lt data hbytes
  have eh0 : (0 : ℚ) ≤ (raw_humidity data : ℚ) := Nat.cast_nonneg _
  have et0 : (0 : ℚ) ≤ (raw_temp data : ℚ) := Nat.cast_nonneg _
  have hsame : aht10_read ESP_OK ESP_OK { data with b0 := b0 } out
      = aht10_read ESP_OK ESP_OK data out := by
    have r1 : raw_humidity { data with b0 := b0 } = raw_humidity data := rfl
    have r2 : raw_temp { data with b0 := b0 } = raw_temp data := rfl
    rw [aht10_read_accept { data with b0 := b0 } out hb0, aht10_read_accept data out hready,
      r1, r2]
  have hpow : (2 : ℚ) ^ 20 = 1048576 := by norm_num
  have x1 : 0 ≤ (raw_humidity data : ℚ) / 2 ^ 20 * 100 := by
    rw [hpow]
    linarith
  have x2 : (raw_humidity data : ℚ) / 2 ^ 20 * 100 < 100 := by
    rw [hpow]
    linarith
  have x3 : -50 ≤ (raw_temp data : ℚ) / 2 ^ 20 * 200 - 50 := by
    rw [hpow]
    linarith
  have x4 : (raw_temp data : ℚ) / 2 ^ 20 * 200 - 50 < 150 := by
    rw [hpow]
    linarith
  rw [hsame, aht10_read_accept_bytes data out hbytes hready]
  exact ⟨rfl, hh.1, hh.2.1, ht.1, ht.2.1, x1, x2, x3, x4, rfl⟩

theorem aht10_read_physical_range_witness :
    (aht10_read ESP_OK ESP_OK
        { b0 := 0x1C, b1 := 0xFF, b2 := 0xFF, b3 := 0xFF, b4 := 0xFF, b5 := 0xFF }
        { temperature_c := 0, humidity := 0 }).2.temperature_c < 150
    ∧ aht10_read ESP_OK ESP_OK
        { b0 := 0x7F, b1 := 0xFF, b2 := 0xFF, b3 := 0xFF, b4 := 0xFF, b5 := 0xFF }
        { temperature_c := 0, humidity := 0 }
      = aht10_read ESP_OK ESP_OK
        { b0 := 0x1C, b1 := 0xFF, b2 := 0xFF, b3 := 0xFF, b4 := 0xFF, b5 := 0xFF }
        { temperature_c := 0, humidity := 0 } :=
  have h := aht10_read_physical_range
    { b0 := 0x1C, b1 := 0xFF, b2 := 0xFF, b3 := 0xFF, b4 := 0xFF, b5 := 0xFF }
    { temperature_c := 0, humidity := 0 } 0x7F (by decide) (by decide) (by decide)
  ⟨h.2.2.2.2.1, h.2.2.2.2.2.2.2.2.2⟩

end ESP32AHT10
